import Mathlib

/-! The stub generator protoc-gen-grpchan.

A shallow embedding of `cmd/protoc-gen-grpchan/protoc-gen-grpchan.go`.

The generator walks the descriptors of one proto file and builds a `gopoet`
Go file: per service a registration function, a client-holder struct, a
constructor and one method per RPC method, whose body depends on the two
streaming flags of the method.

The libraries the generator calls (`desc`, `plugins`, `gopoet`, `fmt`, `path`)
are not part of the repository.  Their data is modelled by plain records, the
builder calls of `gopoet` by functions on these records, and the behaviour
that the generator cannot see into (the naming policy `plugins.GoNames`,
`gopoet.Unexport`, the rendering done by `gopoet.WriteGoFile`) is taken as a
parameter.  A call that panics returns nothing: `resp.OutputFile` panics on a
name that has been opened before, and the generator with it.

In string literals the braces of the emitted Go text are written `\x7b` and
`\x7d`.
-/

namespace Grpchan

/-! ## Descriptors (package `desc`) -/

/-- Message descriptor: only its names are used. -/
structure MessageDescriptor where
  name : String
  fullyQualifiedName : String
deriving DecidableEq, Repr

/-- Method descriptor of `desc`: names, message types and the two streaming flags. -/
structure MethodDescriptor where
  name : String
  fullyQualifiedName : String
  inputType : MessageDescriptor
  outputType : MessageDescriptor
  clientStreaming : Bool
  serverStreaming : Bool
deriving DecidableEq, Repr

/-- Service descriptor of `desc`: names and the methods in declaration order. -/
structure ServiceDescriptor where
  name : String
  fullyQualifiedName : String
  methods : List MethodDescriptor
deriving DecidableEq, Repr

/-- File descriptor of `desc`: the unit of generation. -/
structure FileDescriptor where
  name : String
  package : String
  services : List ServiceDescriptor
deriving DecidableEq, Repr

/-! ## Package `fmt` and `path` -/

/-- Go errors, identified by their message. -/
abbrev GoError := String

/-- Worker of `Sprintf` on characters: a `%` together with the verb character
after it consumes the next argument; every other character is copied.  The
generator only uses the verbs `%s`, `%d` and `%v`, on arguments whose default
rendering is passed in `args`. -/
def sprintfAux : List Char → List String → List Char
  | [], _ => []
  | [c], _ => [c]
  | c :: v :: cs, args =>
    if c = '%' then
      match args with
      | a :: rest => a.data ++ sprintfAux cs rest
      | [] => '%' :: '!' :: v :: "(MISSING)".data ++ sprintfAux cs []
    else c :: sprintfAux (v :: cs) args

/-- The fragment of `fmt.Sprintf` used by the generator. -/
def Sprintf (format : String) (args : List String) : String :=
  ⟨sprintfAux format.data args⟩

/-- Go's `path.Base`: the last element of a slash-separated path. -/
def pathBase (p : String) : String :=
  if p = "" then "."
  else
    let stripped := p.data.reverse.dropWhile (fun c => c == '/')
    let base := (stripped.takeWhile (fun c => c != '/')).reverse
    if base.isEmpty then "/" else ⟨base⟩

/-! ## Package `gopoet`: the code builder -/

/-- A `gopoet.Symbol`: a name in a Go package. -/
structure Symbol where
  importPath : String
  name : String
deriving DecidableEq, Repr

/-- The `gopoet.TypeName` values the generator builds or receives. -/
inductive TypeName where
  | named (s : Symbol)
  | slice (elem : TypeName)
  | error
deriving DecidableEq, Repr

def NewSymbol (importPath name : String) : Symbol := ⟨importPath, name⟩
def NamedType (s : Symbol) : TypeName := .named s
def SliceType (t : TypeName) : TypeName := .slice t
def ErrorType : TypeName := .error

/-- A named field, argument or result (`gopoet.FieldSpec`, `gopoet.ArgType`). -/
structure ArgSpec where
  name : String
  type : TypeName
deriving DecidableEq, Repr

def NewField (name : String) (t : TypeName) : ArgSpec := ⟨name, t⟩

/-- A struct type declaration (`gopoet.TypeSpec` built by `NewStructTypeSpec`). -/
structure TypeSpec where
  name : String
  fields : List ArgSpec
deriving DecidableEq, Repr

def NewStructTypeSpec (name : String) (field : ArgSpec) : TypeSpec := ⟨name, [field]⟩

/-- Method receiver (`gopoet.ReceiverSpec`). -/
structure ReceiverSpec where
  name : String
  type : TypeSpec
  pointer : Bool
deriving DecidableEq, Repr

def NewPointerReceiverForType (name : String) (t : TypeSpec) : ReceiverSpec := ⟨name, t, true⟩

/-- An argument handed to `Printlnf`. -/
inductive Arg where
  | str (s : String)
  | int (n : Nat)
  | symbol (s : Symbol)
  | typeName (t : TypeName)
  | typeSpec (t : TypeSpec)
deriving DecidableEq, Repr

/-- One `Printlnf` call: the format and its arguments, kept until the file is written. -/
structure Line where
  format : String
  args : List Arg
deriving DecidableEq, Repr

/-- A function or method under construction (`gopoet.FuncSpec`). -/
structure FuncSpec where
  name : String
  receiver : Option ReceiverSpec
  args : List ArgSpec
  results : List ArgSpec
  variadic : Bool
  body : List Line
deriving DecidableEq, Repr

def NewFunc (name : String) : FuncSpec := ⟨name, none, [], [], false, []⟩
def NewMethod (rcv : ReceiverSpec) (name : String) : FuncSpec := ⟨name, some rcv, [], [], false, []⟩

def FuncSpec.AddArg (f : FuncSpec) (name : String) (t : TypeName) : FuncSpec :=
  { f with args := f.args ++ [⟨name, t⟩] }

def FuncSpec.AddResult (f : FuncSpec) (name : String) (t : TypeName) : FuncSpec :=
  { f with results := f.results ++ [⟨name, t⟩] }

def FuncSpec.SetVariadic (f : FuncSpec) (b : Bool) : FuncSpec :=
  { f with variadic := b }

def FuncSpec.Printlnf (f : FuncSpec) (format : String) (args : List Arg) : FuncSpec :=
  { f with body := f.body ++ [⟨format, args⟩] }

/-- An element of a Go file: the generator adds functions, methods and type declarations. -/
inductive FileElement where
  | func (f : FuncSpec)
  | typeDecl (t : TypeSpec)
deriving DecidableEq, Repr

/-- A Go file under construction (`gopoet.GoFile`). -/
structure GoFile where
  name : String
  importPath : String
  packageName : String
  FileComment : String
  elements : List FileElement
deriving DecidableEq, Repr

def NewGoFile (fileName importPath packageName : String) : GoFile :=
  ⟨fileName, importPath, packageName, "", []⟩

def GoFile.AddElement (f : GoFile) (e : FileElement) : GoFile :=
  { f with elements := f.elements ++ [e] }

def GoFile.AddType (f : GoFile) (t : TypeSpec) : GoFile :=
  f.AddElement (.typeDecl t)

/-- What the generator takes from `gopoet` without seeing inside: the casing
function `Unexport` and the renderer behind `WriteGoFile`, which yields the
bytes of the file or fails. -/
structure Gopoet where
  Unexport : String → String
  render : GoFile → Except GoError String

/-! ## Package `plugins`: naming policy, request and response -/

/-- A Go package as resolved by the naming policy. -/
structure GoPackage where
  ImportPath : String
  Name : String
deriving DecidableEq, Repr

/-- The naming policy `plugins.GoNames`, as the functions the generator calls. -/
structure GoNames where
  GoPackageForFile : FileDescriptor → GoPackage
  OutputFilenameFor : FileDescriptor → String → String
  CamelCase : String → String
  GoTypeForServiceServer : ServiceDescriptor → TypeName
  GoTypeForServiceClient : ServiceDescriptor → TypeName
  GoNameOfServiceDesc : ServiceDescriptor → Symbol
  GoTypeForStreamClient : MethodDescriptor → TypeName
  GoTypeForStreamClientImpl : MethodDescriptor → TypeName
  GoTypeOfRequest : MethodDescriptor → TypeName
  GoTypeOfResponse : MethodDescriptor → TypeName
  GoTypeForMessage : MessageDescriptor → TypeName

/-- The request of the host: the files to generate for, in order. -/
structure CodeGenRequest where
  Files : List FileDescriptor
deriving DecidableEq, Repr

/-- One output file registered in the response. -/
structure OutputEntry where
  name : String
  content : String
deriving DecidableEq, Repr

/-- How a call ends: it returns a value, or it panics and returns nothing. -/
inductive GoRun (α : Type) where
  | returns (a : α)
  | panics
deriving DecidableEq, Repr

/-- The response of the host: the output files opened so far, keyed by their
name.  The files are listed in the order in which they were opened; the
library keeps them in a map, which has no order. -/
structure CodeGenResponse where
  files : List OutputEntry
deriving DecidableEq, Repr

/-- The names of the files opened so far. -/
def CodeGenResponse.opened (resp : CodeGenResponse) : List String :=
  resp.files.map (fun e => e.name)

/-- The call `resp.OutputFile(name)`: panics when a file of that name has
been opened before; otherwise registers the file, empty so far, and returns
the response together with the position of the new file, which stands for the
writer. -/
def CodeGenResponse.OutputFile (resp : CodeGenResponse) (name : String) :
    GoRun (CodeGenResponse × Nat) :=
  if name ∈ resp.opened then .panics
  else .returns (⟨resp.files ++ [⟨name, ""⟩]⟩, resp.files.length)

/-- Appends bytes to the file behind a writer. -/
def CodeGenResponse.write (resp : CodeGenResponse) (out : Nat) (bytes : String) :
    CodeGenResponse :=
  ⟨resp.files.modify (fun e => { e with content := e.content ++ bytes }) out⟩

/-- The call `gopoet.WriteGoFile(out, f)`: renders the file and writes it to
the writer, or returns the error of the renderer. -/
def WriteGoFile (gp : Gopoet) (out : Nat) (f : GoFile) (resp : CodeGenResponse) :
    Option GoError × CodeGenResponse :=
  match gp.render f with
  | .ok bytes => (none, resp.write out bytes)
  | .error e => (some e, resp)

/-! ## The generator -/

def typeOfRegistry : TypeName :=
  NamedType (NewSymbol "github.com/fullstorydev/grpchan" "ServiceRegistry")
def typeOfChannel : TypeName :=
  NamedType (NewSymbol "github.com/fullstorydev/grpchan" "Channel")
def typeOfContext : TypeName :=
  NamedType (NewSymbol "golang.org/x/net/context" "Context")
def typeOfCallOptions : TypeName :=
  SliceType (NamedType (NewSymbol "google.golang.org/grpc" "CallOption"))

/-- The method built in the branch `md.IsClientStreaming()` (bidi or client streaming). -/
def clientStreamingMethod (names : GoNames) (sd : ServiceDescriptor) (cc : TypeSpec)
    (mtdName : String) (streamCount : Nat) (md : MethodDescriptor) : FuncSpec :=
  NewMethod (NewPointerReceiverForType "c" cc) mtdName
    |>.AddArg "ctx" typeOfContext
    |>.AddArg "opts" typeOfCallOptions
    |>.SetVariadic true
    |>.AddResult "" (names.GoTypeForStreamClient md)
    |>.AddResult "" ErrorType
    |>.Printlnf "stream, err := c.ch.NewStream(ctx, &%s.Streams[%d], \"/%s/%s\", opts...)"
        [.symbol (names.GoNameOfServiceDesc sd), .int streamCount,
         .str sd.fullyQualifiedName, .str md.name]
    |>.Printlnf "if err != nil \x7b" []
    |>.Printlnf "    return nil, err" []
    |>.Printlnf "\x7d" []
    |>.Printlnf "x := &%s\x7bstream\x7d" [.typeName (names.GoTypeForStreamClientImpl md)]
    |>.Printlnf "return x, nil" []

/-- The method built in the branch `md.IsServerStreaming()` (server streaming only). -/
def serverStreamingMethod (names : GoNames) (sd : ServiceDescriptor) (cc : TypeSpec)
    (mtdName : String) (streamCount : Nat) (md : MethodDescriptor) : FuncSpec :=
  NewMethod (NewPointerReceiverForType "c" cc) mtdName
    |>.AddArg "ctx" typeOfContext
    |>.AddArg "in" (names.GoTypeOfRequest md)
    |>.AddArg "opts" typeOfCallOptions
    |>.SetVariadic true
    |>.AddResult "" (names.GoTypeForStreamClient md)
    |>.AddResult "" ErrorType
    |>.Printlnf "stream, err := c.ch.NewStream(ctx, &%s.Streams[%d], \"/%s/%s\", opts...)"
        [.symbol (names.GoNameOfServiceDesc sd), .int streamCount,
         .str sd.fullyQualifiedName, .str md.name]
    |>.Printlnf "if err != nil \x7b" []
    |>.Printlnf "    return nil, err" []
    |>.Printlnf "\x7d" []
    |>.Printlnf "x := &%s\x7bstream\x7d" [.typeName (names.GoTypeForStreamClientImpl md)]
    |>.Printlnf "if err := x.ClientStream.SendMsg(in); err != nil \x7b" []
    |>.Printlnf "    return nil, err" []
    |>.Printlnf "\x7d" []
    |>.Printlnf "if err := x.ClientStream.CloseSend(); err != nil \x7b" []
    |>.Printlnf "    return nil, err" []
    |>.Printlnf "\x7d" []
    |>.Printlnf "return x, nil" []

/-- The method built in the last branch (unary method). -/
def unaryMethod (names : GoNames) (sd : ServiceDescriptor) (cc : TypeSpec)
    (mtdName : String) (md : MethodDescriptor) : FuncSpec :=
  NewMethod (NewPointerReceiverForType "c" cc) mtdName
    |>.AddArg "ctx" typeOfContext
    |>.AddArg "in" (names.GoTypeOfRequest md)
    |>.AddArg "opts" typeOfCallOptions
    |>.SetVariadic true
    |>.AddResult "" (names.GoTypeOfResponse md)
    |>.AddResult "" ErrorType
    |>.Printlnf "out := new(%s)" [.typeName (names.GoTypeForMessage md.outputType)]
    |>.Printlnf "err := c.ch.Invoke(ctx, \"/%s/%s\", in, out, opts...)"
        [.str sd.fullyQualifiedName, .str md.name]
    |>.Printlnf "if err != nil \x7b" []
    |>.Printlnf "    return nil, err" []
    |>.Printlnf "\x7d" []
    |>.Printlnf "return out, nil" []

/-- Body of the loop over `sd.GetMethods()`: the state is the file and `streamCount`. -/
def methodStep (names : GoNames) (sd : ServiceDescriptor) (cc : TypeSpec)
    (st : GoFile × Nat) (md : MethodDescriptor) : GoFile × Nat :=
  let f := st.1
  let streamCount := st.2
  let mtdName := names.CamelCase md.name
  if md.clientStreaming then
    (f.AddElement (.func (clientStreamingMethod names sd cc mtdName streamCount md)),
      streamCount + 1)
  else if md.serverStreaming then
    (f.AddElement (.func (serverStreamingMethod names sd cc mtdName streamCount md)),
      streamCount + 1)
  else
    (f.AddElement (.func (unaryMethod names sd cc mtdName md)), streamCount)

/-- Body of the loop over `fd.GetServices()`. -/
def serviceStep (gp : Gopoet) (names : GoNames) (f : GoFile) (sd : ServiceDescriptor) :
    GoFile :=
  let svcName := names.CamelCase sd.name
  let lowerSvcName := gp.Unexport svcName
  let f := f.AddElement (.func (NewFunc (Sprintf "RegisterHandler%s" [svcName])
    |>.AddArg "reg" typeOfRegistry
    |>.AddArg "srv" (names.GoTypeForServiceServer sd)
    |>.Printlnf "reg.RegisterService(&%s, srv)" [.symbol (names.GoNameOfServiceDesc sd)]))
  let cc := NewStructTypeSpec (Sprintf "%sChannelClient" [lowerSvcName])
    (NewField "ch" typeOfChannel)
  let f := f.AddType cc
  let f := f.AddElement (.func (NewFunc (Sprintf "New%sChannelClient" [svcName])
    |>.AddArg "ch" typeOfChannel
    |>.AddResult "" (names.GoTypeForServiceClient sd)
    |>.Printlnf "return &%s\x7bch: ch\x7d" [.typeSpec cc]))
  let streamCount := 0
  (sd.methods.foldl (methodStep names sd cc) (f, streamCount)).1

/-- The file `generateChanStubs` has built when it reaches the write. -/
def buildFile (gp : Gopoet) (names : GoNames) (fd : FileDescriptor) : GoFile :=
  let pkg := names.GoPackageForFile fd
  let filename := names.OutputFilenameFor fd ".pb.grpchan.go"
  let f := NewGoFile (pathBase filename) pkg.ImportPath pkg.Name
  let f := { f with FileComment :=
    "Code generated by protoc-gen-grpchan. DO NOT EDIT.\n" ++ "source: " ++ fd.name }
  fd.services.foldl (serviceStep gp names) f

/-- The function `generateChanStubs`: it returns an error (`none` for `nil`)
and leaves a response, or it panics in `resp.OutputFile`. -/
def generateChanStubs (gp : Gopoet) (fd : FileDescriptor) (names : GoNames)
    (resp : CodeGenResponse) : GoRun (Option GoError × CodeGenResponse) :=
  if fd.services.length = 0 then .returns (none, resp)
  else
    let filename := names.OutputFilenameFor fd ".pb.grpchan.go"
    let f := buildFile gp names fd
    match resp.OutputFile filename with
    | .panics => .panics
    | .returns (resp, out) => .returns (WriteGoFile gp out f resp)

/-- Loop of `doCodeGen` over the files of the request. -/
def doCodeGenLoop (gp : Gopoet) (names : GoNames) :
    List FileDescriptor → CodeGenResponse → GoRun (Option GoError × CodeGenResponse)
  | [], resp => .returns (none, resp)
  | fd :: rest, resp =>
    match generateChanStubs gp fd names resp with
    | .panics => .panics
    | .returns (some err, resp) => .returns (some (Sprintf "%s: %v" [fd.name, err]), resp)
    | .returns (none, resp) => doCodeGenLoop gp names rest resp

/-- The function `doCodeGen`. -/
def doCodeGen (gp : Gopoet) (names : GoNames) (req : CodeGenRequest) (resp : CodeGenResponse) :
    GoRun (Option GoError × CodeGenResponse) :=
  doCodeGenLoop gp names req.Files resp


/-! ## Reading the built file -/

/-- How `gopoet` prints its own values in the file being written (this depends
on the imports of the file). -/
structure Qualifier where
  symbol : Symbol → String
  typeName : TypeName → String
  typeSpec : TypeSpec → String

/-- Default rendering of a `Printlnf` argument. -/
def Arg.render (q : Qualifier) : Arg → String
  | .str s => s
  | .int n => toString n
  | .symbol s => q.symbol s
  | .typeName t => q.typeName t
  | .typeSpec t => q.typeSpec t

/-- The text of a line as it is written: the format, a newline added by `Printlnf`. -/
def Line.render (q : Qualifier) (l : Line) : String :=
  Sprintf (l.format ++ "\n") (l.args.map (Arg.render q))

/-- A method is streaming when one of its two flags is set. -/
def isStreaming (md : MethodDescriptor) : Bool :=
  md.clientStreaming || md.serverStreaming

/-- Number of streaming methods at the positions before `i`. -/
def streamsBefore (ms : List MethodDescriptor) (i : Nat) : Nat :=
  (ms.take i).countP isStreaming

/-- Number of file elements that precede those of service `j`. -/
def declOffset (fd : FileDescriptor) (j : Nat) : Nat :=
  ((fd.services.take j).map (fun sd => 3 + sd.methods.length)).sum

/-- The integer arguments of all lines of a body, in order. -/
def emittedIndices (fs : FuncSpec) : List Nat :=
  (fs.body.map (fun l =>
    l.args.filterMap (fun a => match a with | .int n => some n | _ => none))).flatten

/-- The client-holder type of a service, as `serviceStep` builds it. -/
def holderType (gp : Gopoet) (names : GoNames) (sd : ServiceDescriptor) : TypeSpec :=
  NewStructTypeSpec (Sprintf "%sChannelClient" [gp.Unexport (names.CamelCase sd.name)])
    (NewField "ch" typeOfChannel)

/-- The method `methodStep` adds for `md` when the counter is `k`. -/
def emittedMethod (names : GoNames) (sd : ServiceDescriptor) (cc : TypeSpec) (k : Nat)
    (md : MethodDescriptor) : FuncSpec :=
  if md.clientStreaming then clientStreamingMethod names sd cc (names.CamelCase md.name) k md
  else if md.serverStreaming then
    serverStreamingMethod names sd cc (names.CamelCase md.name) k md
  else unaryMethod names sd cc (names.CamelCase md.name) md

/-- The elements the method loop adds, from counter `k` on. -/
def methodElems (names : GoNames) (sd : ServiceDescriptor) (cc : TypeSpec) :
    Nat → List MethodDescriptor → List FileElement
  | _, [] => []
  | k, md :: ms =>
    .func (emittedMethod names sd cc k md) ::
      methodElems names sd cc (k + (if isStreaming md then 1 else 0)) ms

/-- The registration function of a service, as `serviceStep` builds it. -/
def registerFunc (names : GoNames) (sd : ServiceDescriptor) : FuncSpec :=
  NewFunc (Sprintf "RegisterHandler%s" [names.CamelCase sd.name])
    |>.AddArg "reg" typeOfRegistry
    |>.AddArg "srv" (names.GoTypeForServiceServer sd)
    |>.Printlnf "reg.RegisterService(&%s, srv)" [.symbol (names.GoNameOfServiceDesc sd)]

/-- The constructor of a service, as `serviceStep` builds it. -/
def constructorFunc (gp : Gopoet) (names : GoNames) (sd : ServiceDescriptor) : FuncSpec :=
  NewFunc (Sprintf "New%sChannelClient" [names.CamelCase sd.name])
    |>.AddArg "ch" typeOfChannel
    |>.AddResult "" (names.GoTypeForServiceClient sd)
    |>.Printlnf "return &%s\x7bch: ch\x7d" [.typeSpec (holderType gp names sd)]

/-- The elements `serviceStep` adds for one service. -/
def serviceElems (gp : Gopoet) (names : GoNames) (sd : ServiceDescriptor) : List FileElement :=
  [.func (registerFunc names sd), .typeDecl (holderType gp names sd),
    .func (constructorFunc gp names sd)] ++
    methodElems names sd (holderType gp names sd) 0 sd.methods


/-! ## Reading the emitted statements -/

/-- The call shapes of the design: a closed reading of the two streaming flags. -/
inductive CallShape where
  | Unary
  | ServerStreaming
  | ClientOrBidiStreaming
deriving DecidableEq, Repr

/-- The classification as the design words it: client streaming wins, then
server streaming, else unary. -/
def classify (md : MethodDescriptor) : CallShape :=
  match md.clientStreaming, md.serverStreaming with
  | false, false => .Unary
  | false, true => .ServerStreaming
  | true, _ => .ClientOrBidiStreaming

/-- The operations of the channel and of the stream that a body can call. -/
inductive ChanOp where
  | Invoke
  | NewStream
  | SendMsg
  | CloseSend
deriving DecidableEq, Repr

/-- Whether `pat` occurs in `s` as a contiguous block. -/
def occursIn (pat s : String) : Bool :=
  s.data.tails.any (fun t => pat.data.isPrefixOf t)

/-- The operation a line of Go text calls, found by the text of the call. -/
def lineOp (format : String) : Option ChanOp :=
  if occursIn "c.ch.Invoke(" format then some .Invoke
  else if occursIn "c.ch.NewStream(" format then some .NewStream
  else if occursIn ".SendMsg(" format then some .SendMsg
  else if occursIn ".CloseSend(" format then some .CloseSend
  else none

/-- The operations called in a body, in the order of the lines. -/
def channelOps (fs : FuncSpec) : List ChanOp :=
  fs.body.filterMap (fun l => lineOp l.format)

/-- A line of an emitted body, classified by its text. -/
inductive Tok where
  | callAssign (op : ChanOp)
  | ifErrOpen
  | ifCallOpen (op : ChanOp)
  | returnNilErr
  | returnValNil (v : String)
  | close
  | wrap
  | plain
  | unknown
deriving DecidableEq, Repr

/-- Classifies one line by its format.  A line with a return, an `if` or a
channel operation that is not of a known form is `unknown`. -/
def tokOf (format : String) : Tok :=
  if format = "if err != nil \x7b" then .ifErrOpen
  else if format = "\x7d" then .close
  else if format = "    return nil, err" then .returnNilErr
  else if "return ".data.isPrefixOf format.data ∧ ", nil".data.isSuffixOf format.data then
    .returnValNil ⟨((format.data.drop 7).reverse.drop 5).reverse⟩
  else if occursIn "return" format then .unknown
  else if "if err := ".data.isPrefixOf format.data ∧
      "; err != nil \x7b".data.isSuffixOf format.data then
    match lineOp format with
    | some op => .ifCallOpen op
    | none => .unknown
  else if occursIn "if " format then .unknown
  else if "err := ".data.isPrefixOf format.data ∨ occursIn ", err := " format then
    match lineOp format with
    | some op => .callAssign op
    | none => .unknown
  else if (lineOp format).isSome then .unknown
  else if "x := &".data.isPrefixOf format.data ∧ "\x7bstream\x7d".data.isSuffixOf format.data then
    .wrap
  else .plain

/-- A statement of an emitted body. -/
inductive Stmt where
  | call (op : ChanOp)
  | checkErr
  | callChecked (op : ChanOp)
  | wrap
  | plain
  | returnOk (v : String)
deriving DecidableEq, Repr

/-- Groups the lines of a body into statements; `none` when an `if` is not
the three-line error check. -/
def parseToks : List Tok → Option (List Stmt)
  | [] => some []
  | .callAssign op :: rest => (parseToks rest).map (fun ss => .call op :: ss)
  | .ifErrOpen :: .returnNilErr :: .close :: rest =>
    (parseToks rest).map (fun ss => .checkErr :: ss)
  | .ifCallOpen op :: .returnNilErr :: .close :: rest =>
    (parseToks rest).map (fun ss => .callChecked op :: ss)
  | .returnValNil v :: rest => (parseToks rest).map (fun ss => .returnOk v :: ss)
  | .wrap :: rest => (parseToks rest).map (fun ss => .wrap :: ss)
  | .plain :: rest => (parseToks rest).map (fun ss => .plain :: ss)
  | _ => none

/-- The shape read off the operations a body calls. -/
def shapeOfOps : List ChanOp → Option CallShape
  | [.Invoke] => some .Unary
  | [.NewStream, .SendMsg, .CloseSend] => some .ServerStreaming
  | [.NewStream] => some .ClientOrBidiStreaming
  | _ => none

/-- The wire path of a method: slash, service, slash, method. -/
def wirePath (sd : ServiceDescriptor) (md : MethodDescriptor) : String :=
  "/" ++ sd.fullyQualifiedName ++ "/" ++ md.name

/-- The statements of a generated function. -/
def stmtsOf (fs : FuncSpec) : Option (List Stmt) :=
  parseToks (fs.body.map (fun l => tokOf l.format))

/-- How a run of a generated method ends: the returned value (`none` for
`nil`), the returned error (`none` for `nil`) and the operations that ran. -/
structure Outcome where
  value : Option String
  err : Option GoError
  ran : List ChanOp
deriving DecidableEq, Repr

/-- Runs the statements against a channel whose operations fail as `chan`
says (`none` is success).  `err` is the variable `err` of the body, `ran` the
operations run so far; `none` when the body ends without a return. -/
def exec (chan : ChanOp → Option GoError) :
    List Stmt → Option GoError → List ChanOp → Option Outcome
  | [], _, _ => none
  | .call op :: rest, _, ran => exec chan rest (chan op) (ran ++ [op])
  | .checkErr :: rest, err, ran =>
    match err with
    | some e => some ⟨none, some e, ran⟩
    | none => exec chan rest err ran
  | .callChecked op :: rest, err, ran =>
    match chan op with
    | some e => some ⟨none, some e, ran ++ [op]⟩
    | none => exec chan rest err (ran ++ [op])
  | .wrap :: rest, err, ran => exec chan rest err ran
  | .plain :: rest, err, ran => exec chan rest err ran
  | .returnOk v :: _, _, ran => some ⟨some v, none, ran⟩

/-- What the failure rule asks for: the operations run in order until the
first one fails, whose error is returned with a nil value; when none fails
the value `v` is returned with a nil error. -/
def firstFailure (chan : ChanOp → Option GoError) (v : String) :
    List ChanOp → List ChanOp → Outcome
  | [], ran => ⟨some v, none, ran⟩
  | op :: ops, ran =>
    match chan op with
    | some e => ⟨none, some e, ran ++ [op]⟩
    | none => firstFailure chan v ops (ran ++ [op])

/-- Every assignment from a channel operation is directly followed by the error check. -/
def checkedAfterCall : List Stmt → Bool
  | [] => true
  | .call _ :: .checkErr :: rest => checkedAfterCall rest
  | .call _ :: _ => false
  | _ :: rest => checkedAfterCall rest

/-- The only return with a nil error is the last statement. -/
def returnOkOnlyLast : List Stmt → Bool
  | [] => false
  | [.returnOk _] => true
  | .returnOk _ :: _ => false
  | _ :: rest => returnOkOnlyLast rest

/-- The kinds of declaration the generator adds to a file. -/
inductive DeclKind where
  | registration
  | holderType
  | constructor
  | method
deriving DecidableEq, Repr

/-- The kind of a file element, read off its form: a type declaration is a
holder type, a function with a receiver is a method, a function without
results is a registration function and one with results a constructor. -/
def declKind : FileElement → DeclKind
  | .typeDecl _ => .holderType
  | .func f =>
    if f.receiver.isSome then .method
    else if f.results.isEmpty then .registration
    else .constructor

/-- The name a file element declares. -/
def declName : FileElement → String
  | .typeDecl t => t.name
  | .func f => f.name

/-! ## Reading a run -/

/-- The name of the output file of a unit. -/
def outputName (names : GoNames) (fd : FileDescriptor) : String :=
  names.OutputFilenameFor fd ".pb.grpchan.go"

/-- The error with which the write of a unit fails: `none` when the unit has
no service, so that nothing is written, or when the renderer succeeds. -/
def unitError (gp : Gopoet) (names : GoNames) (fd : FileDescriptor) : Option GoError :=
  if fd.services = [] then none
  else
    match gp.render (buildFile gp names fd) with
    | .ok _ => none
    | .error e => some e

/-- The output file a unit adds to a response in which its name is free: none
for a unit without service, else one file, which holds the rendered bytes or,
when the renderer fails, nothing. -/
def unitOutput (gp : Gopoet) (names : GoNames) (fd : FileDescriptor) : List OutputEntry :=
  if fd.services = [] then []
  else
    [⟨outputName names fd,
      match gp.render (buildFile gp names fd) with
      | .ok bytes => bytes
      | .error _ => ""⟩]

/-- The names of the output files that the units with a service ask for, in
request order. -/
def outputNames (names : GoNames) (fds : List FileDescriptor) : List String :=
  (fds.map (fun fd => if fd.services = [] then [] else [outputName names fd])).flatten

/-- No output name is asked for twice, and none has been opened in the
response: the condition under which no `OutputFile` call of a run panics. -/
def noClash (names : GoNames) (resp : CodeGenResponse) (fds : List FileDescriptor) : Prop :=
  (outputNames names fds).Nodup ∧ ∀ n ∈ outputNames names fds, n ∉ resp.opened

/-- The top-level symbol a file element declares: the name of a type or of a
function without receiver; a method declares none. -/
def topLevelName : FileElement → Option String
  | .typeDecl t => some t.name
  | .func fs => if fs.receiver.isSome then none else some fs.name

/-- The top-level symbols a file declares, in order. -/
def topLevelSymbols (f : GoFile) : List String :=
  f.elements.filterMap topLevelName

/-- The stream indices a file element carries. -/
def elementIndices : FileElement → List Nat
  | .func fs => emittedIndices fs
  | .typeDecl _ => []

/-- Splits characters into lines at the newline character. -/
def splitLines : List Char → List (List Char)
  | [] => [[]]
  | c :: cs =>
    match splitLines cs with
    | [] => [[]]
    | l :: ls => if c = '\n' then [] :: l :: ls else (c :: l) :: ls

/-- The lines of a text. -/
def linesOf (s : String) : List String :=
  (splitLines s.data).map String.mk

/-! ## Sample inputs -/

/-- A naming policy that derives every name from the descriptor names. -/
def exNames : GoNames where
  GoPackageForFile fd := ⟨"example.com/" ++ fd.package, fd.package⟩
  OutputFilenameFor fd suffix :=
    (if ".proto".data.isSuffixOf fd.name.data then
      ⟨fd.name.data.take (fd.name.data.length - 6)⟩ else fd.name) ++ suffix
  CamelCase s := ⟨match s.data with | [] => [] | c :: cs => c.toUpper :: cs⟩
  GoTypeForServiceServer sd := .named ⟨"", sd.name ++ "Server"⟩
  GoTypeForServiceClient sd := .named ⟨"", sd.name ++ "Client"⟩
  GoNameOfServiceDesc sd := ⟨"", "_" ++ sd.name ++ "_serviceDesc"⟩
  GoTypeForStreamClient md := .named ⟨"", md.name ++ "Client"⟩
  GoTypeForStreamClientImpl md := .named ⟨"", md.name ++ "ClientImpl"⟩
  GoTypeOfRequest md := .named ⟨"", md.inputType.name⟩
  GoTypeOfResponse md := .named ⟨"", md.outputType.name⟩
  GoTypeForMessage m := .named ⟨"", m.name⟩

/-- A builder library whose renderer succeeds. -/
def exGopoet : Gopoet where
  Unexport s := ⟨match s.data with | [] => [] | c :: cs => c.toLower :: cs⟩
  render f := .ok (f.FileComment ++ "\n")

/-- A builder library whose renderer fails. -/
def exFailingGopoet : Gopoet where
  Unexport s := ⟨match s.data with | [] => [] | c :: cs => c.toLower :: cs⟩
  render _ := .error "write failed"

/-- A qualifier that prints the bare names. -/
def exQualifier : Qualifier where
  symbol s := s.name
  typeName t := match t with | .named s => s.name | .slice _ => "[]" | .error => "error"
  typeSpec t := t.name

def exRequest : MessageDescriptor := ⟨"EchoRequest", "EchoRequest"⟩
def exResponse : MessageDescriptor := ⟨"EchoResponse", "EchoResponse"⟩

/-- The unary method `Say` of the service `Echo`. -/
def exSay : MethodDescriptor := ⟨"Say", "Echo.Say", exRequest, exResponse, false, false⟩

/-- The service `Echo` with its one unary method. -/
def exEcho : ServiceDescriptor := ⟨"Echo", "Echo", [exSay]⟩

/-- The unit that declares `Echo`. -/
def exEchoFile : FileDescriptor := ⟨"echo.proto", "echo", [exEcho]⟩

def exGet : MethodDescriptor := ⟨"Get", "Mixed.Get", exRequest, exResponse, false, false⟩
def exWatch : MethodDescriptor := ⟨"Watch", "Mixed.Watch", exRequest, exResponse, false, true⟩
def exPut : MethodDescriptor := ⟨"Put", "Mixed.Put", exRequest, exResponse, false, false⟩
def exChat : MethodDescriptor := ⟨"Chat", "Mixed.Chat", exRequest, exResponse, true, true⟩
def exUpload : MethodDescriptor := ⟨"Upload", "Mixed.Upload", exRequest, exResponse, true, false⟩

/-- A service with the methods unary, server streaming, unary, bidi. -/
def exMixed : ServiceDescriptor := ⟨"Mixed", "Mixed", [exGet, exWatch, exPut, exChat]⟩

/-- A unit with two services. -/
def exMixedFile : FileDescriptor := ⟨"mixed.proto", "mixed", [exEcho, exMixed]⟩

/-- A unit without services. -/
def exEmptyFile : FileDescriptor := ⟨"empty.proto", "empty", []⟩

/-- A service named in lower case. -/
def exLowerFoo : ServiceDescriptor := ⟨"foo", "pkg.foo", []⟩

/-- A service whose name differs from the one above by its first letter only. -/
def exUpperFoo : ServiceDescriptor := ⟨"Foo", "pkg.Foo", []⟩

/-- A unit with two services whose names differ but camel-case alike. -/
def exCollideFile : FileDescriptor := ⟨"collide.proto", "pkg", [exLowerFoo, exUpperFoo]⟩

/-- A naming policy that puts the output of a unit under its package, named
by the base name of the unit. -/
def exDirNames : GoNames :=
  { exNames with
    OutputFilenameFor := fun fd suffix =>
      fd.package ++ "/" ++ pathBase (exNames.OutputFilenameFor fd "") ++ suffix }

/-- A unit of the package `echo` in the directory `a`. -/
def exEchoFileA : FileDescriptor := ⟨"a/echo.proto", "echo", [exEcho]⟩

/-- A unit of the same package with the same base name, in the directory `b`. -/
def exEchoFileB : FileDescriptor := ⟨"b/echo.proto", "echo", [exMixed]⟩

/-! ## The loops in closed form -/

theorem methodStep_eq (names : GoNames) (sd : ServiceDescriptor) (cc : TypeSpec)
    (f : GoFile) (k : Nat) (md : MethodDescriptor) :
    methodStep names sd cc (f, k) md =
      (f.AddElement (.func (emittedMethod names sd cc k md)),
        k + (if isStreaming md then 1 else 0)) := by
  unfold methodStep emittedMethod isStreaming
  cases hc : md.clientStreaming <;> cases hs : md.serverStreaming <;> simp

theorem foldl_methodStep (names : GoNames) (sd : ServiceDescriptor) (cc : TypeSpec)
    (ms : List MethodDescriptor) (f : GoFile) (k : Nat) :
    ms.foldl (methodStep names sd cc) (f, k) =
      ({ f with elements := f.elements ++ methodElems names sd cc k ms },
        k + ms.countP isStreaming) := by
  induction ms generalizing f k with
  | nil => simp [methodElems]
  | cons md ms ih =>
    rw [List.foldl_cons, methodStep_eq, ih]
    by_cases h : isStreaming md = true <;>
      (simp [methodElems, GoFile.AddElement, h, List.countP_cons]; try omega)

theorem serviceStep_eq (gp : Gopoet) (names : GoNames) (f : GoFile) (sd : ServiceDescriptor) :
    serviceStep gp names f sd =
      { f with elements := f.elements ++ serviceElems gp names sd } := by
  unfold serviceStep
  simp only [foldl_methodStep]
  simp [serviceElems, GoFile.AddElement, GoFile.AddType, registerFunc, constructorFunc,
    holderType]

theorem foldl_serviceStep (gp : Gopoet) (names : GoNames) (sds : List ServiceDescriptor)
    (f : GoFile) :
    sds.foldl (serviceStep gp names) f =
      { f with elements := f.elements ++ (sds.map (serviceElems gp names)).flatten } := by
  induction sds generalizing f with
  | nil => simp
  | cons sd sds ih => rw [List.foldl_cons, serviceStep_eq, ih]; simp

theorem buildFile_elements (gp : Gopoet) (names : GoNames) (fd : FileDescriptor) :
    (buildFile gp names fd).elements = (fd.services.map (serviceElems gp names)).flatten := by
  simp [buildFile, foldl_serviceStep, NewGoFile]

theorem methodElems_length (names : GoNames) (sd : ServiceDescriptor) (cc : TypeSpec)
    (ms : List MethodDescriptor) (k : Nat) :
    (methodElems names sd cc k ms).length = ms.length := by
  induction ms generalizing k with
  | nil => rfl
  | cons md ms ih => simp [methodElems, ih]

theorem serviceElems_length (gp : Gopoet) (names : GoNames) (sd : ServiceDescriptor) :
    (serviceElems gp names sd).length = 3 + sd.methods.length := by
  simp [serviceElems, methodElems_length]; omega

theorem methodElems_getElem? (names : GoNames) (sd : ServiceDescriptor) (cc : TypeSpec)
    (ms : List MethodDescriptor) (k i : Nat) (md : MethodDescriptor)
    (h : ms[i]? = some md) :
    (methodElems names sd cc k ms)[i]? =
      some (.func (emittedMethod names sd cc (k + streamsBefore ms i) md)) := by
  induction ms generalizing k i with
  | nil => simp at h
  | cons m ms ih =>
    cases i with
    | zero =>
      simp at h
      simp [methodElems, streamsBefore, h]
    | succ i =>
      simp at h
      simp only [methodElems, List.getElem?_cons_succ]
      rw [ih _ _ h]
      by_cases hm : isStreaming m = true <;>
        simp [streamsBefore, List.countP_cons, hm, Nat.add_comm, Nat.add_left_comm]

theorem flatten_getElem?_offset {α β : Type} (g : α → List β) (l : List α) (j k : Nat) (a : α)
    (h : l[j]? = some a) (hk : k < (g a).length) :
    ((l.map g).flatten)[((l.take j).map (fun x => (g x).length)).sum + k]? = (g a)[k]? := by
  induction l generalizing j with
  | nil => simp at h
  | cons x xs ih =>
    cases j with
    | zero =>
      simp at h
      subst h
      simp [List.getElem?_append_left hk]
    | succ j =>
      simp at h
      simp only [List.map_cons, List.flatten_cons, List.take_succ_cons, List.sum_cons]
      rw [Nat.add_assoc, List.getElem?_append_right (Nat.le_add_right _ _)]
      simpa using ih j h

theorem buildFile_getElem? (gp : Gopoet) (names : GoNames) (fd : FileDescriptor) (j k : Nat)
    (sd : ServiceDescriptor) (h : fd.services[j]? = some sd) (hk : k < 3 + sd.methods.length) :
    (buildFile gp names fd).elements[declOffset fd j + k]? = (serviceElems gp names sd)[k]? := by
  rw [buildFile_elements]
  have := flatten_getElem?_offset (serviceElems gp names) fd.services j k sd h
    (by rw [serviceElems_length]; exact hk)
  simpa [declOffset, serviceElems_length] using this

theorem buildFile_method (gp : Gopoet) (names : GoNames) (fd : FileDescriptor) (j i : Nat)
    (sd : ServiceDescriptor) (md : MethodDescriptor)
    (hj : fd.services[j]? = some sd) (hi : sd.methods[i]? = some md) :
    (buildFile gp names fd).elements[declOffset fd j + 3 + i]? =
      some (.func (emittedMethod names sd (holderType gp names sd)
        (streamsBefore sd.methods i) md)) := by
  have hlt : i < sd.methods.length := by
    rcases List.getElem?_eq_some_iff.mp hi with ⟨h, _⟩
    exact h
  rw [Nat.add_assoc, buildFile_getElem? gp names fd j (3 + i) sd hj (by omega)]
  have := methodElems_getElem? names sd (holderType gp names sd) sd.methods 0 i md hi
  simp only [Nat.zero_add] at this
  rw [← this, Nat.add_comm 3 i]
  simp [serviceElems]

/-! ## Rendering of the emitted lines -/

theorem render_newStream (q : Qualifier) (s : Symbol) (k : Nat) (a b : String) :
    Line.render q ⟨"stream, err := c.ch.NewStream(ctx, &%s.Streams[%d], \"/%s/%s\", opts...)",
      [.symbol s, .int k, .str a, .str b]⟩ =
      "stream, err := c.ch.NewStream(ctx, &" ++ q.symbol s ++ ".Streams[" ++ toString k ++
        "], \"" ++ ("/" ++ a ++ "/" ++ b) ++ "\", opts...)\n" := by
  apply String.ext
  simp [Line.render, Arg.render, Sprintf, sprintfAux]

theorem render_invoke (q : Qualifier) (a b : String) :
    Line.render q ⟨"err := c.ch.Invoke(ctx, \"/%s/%s\", in, out, opts...)", [.str a, .str b]⟩ =
      "err := c.ch.Invoke(ctx, \"" ++ ("/" ++ a ++ "/" ++ b) ++ "\", in, out, opts...)\n" := by
  apply String.ext
  simp [Line.render, Arg.render, Sprintf, sprintfAux]

theorem sprintf_registerHandler (s : String) :
    Sprintf "RegisterHandler%s" [s] = "RegisterHandler" ++ s := by
  apply String.ext
  simp [Sprintf, sprintfAux]

theorem sprintf_channelClient (s : String) :
    Sprintf "%sChannelClient" [s] = s ++ "ChannelClient" := by
  apply String.ext
  simp [Sprintf, sprintfAux]

theorem sprintf_newChannelClient (s : String) :
    Sprintf "New%sChannelClient" [s] = "New" ++ s ++ "ChannelClient" := by
  apply String.ext
  simp [Sprintf, sprintfAux]


/-! ## The lines of the three bodies, read one by one -/

theorem lineOp_alloc : lineOp "out := new(%s)" = none := by decide

theorem lineOp_invoke : lineOp "err := c.ch.Invoke(ctx, \"/%s/%s\", in, out, opts...)" = some .Invoke := by decide

theorem lineOp_ifErr : lineOp "if err != nil \x7b" = none := by decide

theorem lineOp_returnNilErr : lineOp "    return nil, err" = none := by decide

theorem lineOp_close : lineOp "\x7d" = none := by decide

theorem lineOp_returnOut : lineOp "return out, nil" = none := by decide

theorem lineOp_newStream : lineOp "stream, err := c.ch.NewStream(ctx, &%s.Streams[%d], \"/%s/%s\", opts...)" = some .NewStream := by decide

theorem lineOp_wrap : lineOp "x := &%s\x7bstream\x7d" = none := by decide

theorem lineOp_sendMsg : lineOp "if err := x.ClientStream.SendMsg(in); err != nil \x7b" = some .SendMsg := by decide

theorem lineOp_closeSend : lineOp "if err := x.ClientStream.CloseSend(); err != nil \x7b" = some .CloseSend := by decide

theorem lineOp_returnX : lineOp "return x, nil" = none := by decide

theorem tokOf_alloc : tokOf "out := new(%s)" = .plain := by decide

theorem tokOf_invoke : tokOf "err := c.ch.Invoke(ctx, \"/%s/%s\", in, out, opts...)" = .callAssign .Invoke := by decide

theorem tokOf_ifErr : tokOf "if err != nil \x7b" = .ifErrOpen := by decide

theorem tokOf_returnNilErr : tokOf "    return nil, err" = .returnNilErr := by decide

theorem tokOf_close : tokOf "\x7d" = .close := by decide

theorem tokOf_returnOut : tokOf "return out, nil" = .returnValNil "out" := by decide

theorem tokOf_newStream : tokOf "stream, err := c.ch.NewStream(ctx, &%s.Streams[%d], \"/%s/%s\", opts...)" = .callAssign .NewStream := by decide

theorem tokOf_wrap : tokOf "x := &%s\x7bstream\x7d" = .wrap := by decide

theorem tokOf_sendMsg : tokOf "if err := x.ClientStream.SendMsg(in); err != nil \x7b" = .ifCallOpen .SendMsg := by decide

theorem tokOf_closeSend : tokOf "if err := x.ClientStream.CloseSend(); err != nil \x7b" = .ifCallOpen .CloseSend := by decide

theorem tokOf_returnX : tokOf "return x, nil" = .returnValNil "x" := by decide

theorem body_unaryMethod (names : GoNames) (sd : ServiceDescriptor) (cc : TypeSpec)
    (n : String) (md : MethodDescriptor) :
    (unaryMethod names sd cc n md).body =
      [⟨"out := new(%s)", [.typeName (names.GoTypeForMessage md.outputType)]⟩,
       ⟨"err := c.ch.Invoke(ctx, \"/%s/%s\", in, out, opts...)",
         [.str sd.fullyQualifiedName, .str md.name]⟩,
       ⟨"if err != nil \x7b", []⟩, ⟨"    return nil, err", []⟩, ⟨"\x7d", []⟩,
       ⟨"return out, nil", []⟩] := by
  simp [unaryMethod, NewMethod, FuncSpec.AddArg, FuncSpec.AddResult, FuncSpec.SetVariadic,
    FuncSpec.Printlnf]

theorem body_serverStreamingMethod (names : GoNames) (sd : ServiceDescriptor) (cc : TypeSpec)
    (n : String) (k : Nat) (md : MethodDescriptor) :
    (serverStreamingMethod names sd cc n k md).body =
      [⟨"stream, err := c.ch.NewStream(ctx, &%s.Streams[%d], \"/%s/%s\", opts...)",
         [.symbol (names.GoNameOfServiceDesc sd), .int k, .str sd.fullyQualifiedName,
          .str md.name]⟩,
       ⟨"if err != nil \x7b", []⟩, ⟨"    return nil, err", []⟩, ⟨"\x7d", []⟩,
       ⟨"x := &%s\x7bstream\x7d", [.typeName (names.GoTypeForStreamClientImpl md)]⟩,
       ⟨"if err := x.ClientStream.SendMsg(in); err != nil \x7b", []⟩,
       ⟨"    return nil, err", []⟩, ⟨"\x7d", []⟩,
       ⟨"if err := x.ClientStream.CloseSend(); err != nil \x7b", []⟩,
       ⟨"    return nil, err", []⟩, ⟨"\x7d", []⟩,
       ⟨"return x, nil", []⟩] := by
  simp [serverStreamingMethod, NewMethod, FuncSpec.AddArg, FuncSpec.AddResult,
    FuncSpec.SetVariadic, FuncSpec.Printlnf]

theorem body_clientStreamingMethod (names : GoNames) (sd : ServiceDescriptor) (cc : TypeSpec)
    (n : String) (k : Nat) (md : MethodDescriptor) :
    (clientStreamingMethod names sd cc n k md).body =
      [⟨"stream, err := c.ch.NewStream(ctx, &%s.Streams[%d], \"/%s/%s\", opts...)",
         [.symbol (names.GoNameOfServiceDesc sd), .int k, .str sd.fullyQualifiedName,
          .str md.name]⟩,
       ⟨"if err != nil \x7b", []⟩, ⟨"    return nil, err", []⟩, ⟨"\x7d", []⟩,
       ⟨"x := &%s\x7bstream\x7d", [.typeName (names.GoTypeForStreamClientImpl md)]⟩,
       ⟨"return x, nil", []⟩] := by
  simp [clientStreamingMethod, NewMethod, FuncSpec.AddArg, FuncSpec.AddResult,
    FuncSpec.SetVariadic, FuncSpec.Printlnf]

theorem channelOps_unaryMethod (names : GoNames) (sd : ServiceDescriptor) (cc : TypeSpec)
    (n : String) (md : MethodDescriptor) :
    channelOps (unaryMethod names sd cc n md) = [.Invoke] := by
  simp [channelOps, body_unaryMethod, lineOp_alloc, lineOp_invoke, lineOp_ifErr,
    lineOp_returnNilErr, lineOp_close, lineOp_returnOut]

theorem channelOps_serverStreamingMethod (names : GoNames) (sd : ServiceDescriptor)
    (cc : TypeSpec) (n : String) (k : Nat) (md : MethodDescriptor) :
    channelOps (serverStreamingMethod names sd cc n k md) =
      [.NewStream, .SendMsg, .CloseSend] := by
  simp [channelOps, body_serverStreamingMethod, lineOp_newStream, lineOp_ifErr,
    lineOp_returnNilErr, lineOp_close, lineOp_wrap, lineOp_sendMsg, lineOp_closeSend,
    lineOp_returnX]

theorem channelOps_clientStreamingMethod (names : GoNames) (sd : ServiceDescriptor)
    (cc : TypeSpec) (n : String) (k : Nat) (md : MethodDescriptor) :
    channelOps (clientStreamingMethod names sd cc n k md) = [.NewStream] := by
  simp [channelOps, body_clientStreamingMethod, lineOp_newStream, lineOp_ifErr,
    lineOp_returnNilErr, lineOp_close, lineOp_wrap, lineOp_returnX]

theorem stmtsOf_unaryMethod (names : GoNames) (sd : ServiceDescriptor) (cc : TypeSpec)
    (n : String) (md : MethodDescriptor) :
    stmtsOf (unaryMethod names sd cc n md) =
      some [.plain, .call .Invoke, .checkErr, .returnOk "out"] := by
  simp [stmtsOf, body_unaryMethod, tokOf_alloc, tokOf_invoke, tokOf_ifErr,
    tokOf_returnNilErr, tokOf_close, tokOf_returnOut, parseToks]

theorem stmtsOf_serverStreamingMethod (names : GoNames) (sd : ServiceDescriptor)
    (cc : TypeSpec) (n : String) (k : Nat) (md : MethodDescriptor) :
    stmtsOf (serverStreamingMethod names sd cc n k md) =
      some [.call .NewStream, .checkErr, .wrap, .callChecked .SendMsg,
        .callChecked .CloseSend, .returnOk "x"] := by
  simp [stmtsOf, body_serverStreamingMethod, tokOf_newStream, tokOf_ifErr,
    tokOf_returnNilErr, tokOf_close, tokOf_wrap, tokOf_sendMsg, tokOf_closeSend,
    tokOf_returnX, parseToks]

theorem stmtsOf_clientStreamingMethod (names : GoNames) (sd : ServiceDescriptor)
    (cc : TypeSpec) (n : String) (k : Nat) (md : MethodDescriptor) :
    stmtsOf (clientStreamingMethod names sd cc n k md) =
      some [.call .NewStream, .checkErr, .wrap, .returnOk "x"] := by
  simp [stmtsOf, body_clientStreamingMethod, tokOf_newStream, tokOf_ifErr,
    tokOf_returnNilErr, tokOf_close, tokOf_wrap, tokOf_returnX, parseToks]


/-! ## The three method builders, field by field -/

theorem unaryMethod_eq (names : GoNames) (sd : ServiceDescriptor) (cc : TypeSpec)
    (n : String) (md : MethodDescriptor) :
    unaryMethod names sd cc n md =
      { name := n
        receiver := some ⟨"c", cc, true⟩
        args := [⟨"ctx", typeOfContext⟩, ⟨"in", names.GoTypeOfRequest md⟩,
          ⟨"opts", typeOfCallOptions⟩]
        results := [⟨"", names.GoTypeOfResponse md⟩, ⟨"", ErrorType⟩]
        variadic := true
        body := (unaryMethod names sd cc n md).body } := by
  simp [unaryMethod, NewMethod, NewPointerReceiverForType, FuncSpec.AddArg, FuncSpec.AddResult,
    FuncSpec.SetVariadic, FuncSpec.Printlnf]

theorem serverStreamingMethod_eq (names : GoNames) (sd : ServiceDescriptor) (cc : TypeSpec)
    (n : String) (k : Nat) (md : MethodDescriptor) :
    serverStreamingMethod names sd cc n k md =
      { name := n
        receiver := some ⟨"c", cc, true⟩
        args := [⟨"ctx", typeOfContext⟩, ⟨"in", names.GoTypeOfRequest md⟩,
          ⟨"opts", typeOfCallOptions⟩]
        results := [⟨"", names.GoTypeForStreamClient md⟩, ⟨"", ErrorType⟩]
        variadic := true
        body := (serverStreamingMethod names sd cc n k md).body } := by
  simp [serverStreamingMethod, NewMethod, NewPointerReceiverForType, FuncSpec.AddArg,
    FuncSpec.AddResult, FuncSpec.SetVariadic, FuncSpec.Printlnf]

theorem clientStreamingMethod_eq (names : GoNames) (sd : ServiceDescriptor) (cc : TypeSpec)
    (n : String) (k : Nat) (md : MethodDescriptor) :
    clientStreamingMethod names sd cc n k md =
      { name := n
        receiver := some ⟨"c", cc, true⟩
        args := [⟨"ctx", typeOfContext⟩, ⟨"opts", typeOfCallOptions⟩]
        results := [⟨"", names.GoTypeForStreamClient md⟩, ⟨"", ErrorType⟩]
        variadic := true
        body := (clientStreamingMethod names sd cc n k md).body } := by
  simp [clientStreamingMethod, NewMethod, NewPointerReceiverForType, FuncSpec.AddArg,
    FuncSpec.AddResult, FuncSpec.SetVariadic, FuncSpec.Printlnf]

theorem emittedMethod_name (names : GoNames) (sd : ServiceDescriptor) (cc : TypeSpec)
    (k : Nat) (md : MethodDescriptor) :
    (emittedMethod names sd cc k md).name = names.CamelCase md.name := by
  unfold emittedMethod
  split
  · rw [clientStreamingMethod_eq]
  · split
    · rw [serverStreamingMethod_eq]
    · rw [unaryMethod_eq]

theorem emittedMethod_receiver (names : GoNames) (sd : ServiceDescriptor) (cc : TypeSpec)
    (k : Nat) (md : MethodDescriptor) :
    (emittedMethod names sd cc k md).receiver = some ⟨"c", cc, true⟩ := by
  unfold emittedMethod
  split
  · rw [clientStreamingMethod_eq]
  · split
    · rw [serverStreamingMethod_eq]
    · rw [unaryMethod_eq]

theorem methodElems_describe (names : GoNames) (sd : ServiceDescriptor) (cc : TypeSpec)
    (ms : List MethodDescriptor) (k : Nat) :
    (methodElems names sd cc k ms).map (fun e => (declKind e, declName e)) =
      ms.map (fun md => (DeclKind.method, names.CamelCase md.name)) := by
  induction ms generalizing k with
  | nil => rfl
  | cons md ms ih =>
    rw [methodElems, List.map_cons, ih, List.map_cons]
    simp [declKind, declName, emittedMethod_name, emittedMethod_receiver]

theorem registerFunc_eq (names : GoNames) (sd : ServiceDescriptor) :
    registerFunc names sd =
      { name := "RegisterHandler" ++ names.CamelCase sd.name
        receiver := none
        args := [⟨"reg", typeOfRegistry⟩, ⟨"srv", names.GoTypeForServiceServer sd⟩]
        results := []
        variadic := false
        body := [⟨"reg.RegisterService(&%s, srv)", [.symbol (names.GoNameOfServiceDesc sd)]⟩] } := by
  simp [registerFunc, NewFunc, FuncSpec.AddArg, FuncSpec.Printlnf, sprintf_registerHandler]

theorem holderType_eq (gp : Gopoet) (names : GoNames) (sd : ServiceDescriptor) :
    holderType gp names sd =
      { name := gp.Unexport (names.CamelCase sd.name) ++ "ChannelClient"
        fields := [⟨"ch", typeOfChannel⟩] } := by
  simp [holderType, NewStructTypeSpec, NewField, sprintf_channelClient]

theorem constructorFunc_eq (gp : Gopoet) (names : GoNames) (sd : ServiceDescriptor) :
    constructorFunc gp names sd =
      { name := "New" ++ names.CamelCase sd.name ++ "ChannelClient"
        receiver := none
        args := [⟨"ch", typeOfChannel⟩]
        results := [⟨"", names.GoTypeForServiceClient sd⟩]
        variadic := false
        body := [⟨"return &%s\x7bch: ch\x7d", [.typeSpec (holderType gp names sd)]⟩] } := by
  simp [constructorFunc, NewFunc, FuncSpec.AddArg, FuncSpec.AddResult, FuncSpec.Printlnf,
    sprintf_newChannelClient]

theorem serviceElems_describe (gp : Gopoet) (names : GoNames) (sd : ServiceDescriptor) :
    (serviceElems gp names sd).map (fun e => (declKind e, declName e)) =
      [(DeclKind.registration, "RegisterHandler" ++ names.CamelCase sd.name),
       (DeclKind.holderType, gp.Unexport (names.CamelCase sd.name) ++ "ChannelClient"),
       (DeclKind.constructor, "New" ++ names.CamelCase sd.name ++ "ChannelClient")] ++
      sd.methods.map (fun md => (DeclKind.method, names.CamelCase md.name)) := by
  simp only [serviceElems, List.map_append, methodElems_describe]
  simp [declKind, declName, registerFunc_eq, constructorFunc_eq, holderType_eq]

theorem generateChanStubs_of_services (gp : Gopoet) (fd : FileDescriptor) (names : GoNames)
    (resp : CodeGenResponse) (hne : fd.services ≠ []) :
    generateChanStubs gp fd names resp =
      match resp.OutputFile (names.OutputFilenameFor fd ".pb.grpchan.go") with
      | .panics => .panics
      | .returns (resp2, out) => .returns (WriteGoFile gp out (buildFile gp names fd) resp2) := by
  have : fd.services.length ≠ 0 := by simpa using hne
  simp only [generateChanStubs, this, if_false]

theorem render_wrap (q : Qualifier) (t : TypeName) :
    Line.render q ⟨"x := &%s\x7bstream\x7d", [.typeName t]⟩ =
      "x := &" ++ q.typeName t ++ "\x7bstream\x7d\n" := by
  apply String.ext
  simp [Line.render, Arg.render, Sprintf, sprintfAux]

theorem modify_append_singleton {α : Type} (g : α → α) (l : List α) (a : α) :
    (l ++ [a]).modify g l.length = l ++ [g a] := by
  induction l with
  | nil => rfl
  | cons x xs ih => simp [List.modify_succ_cons, ih]

theorem generateChanStubs_eq (gp : Gopoet) (fd : FileDescriptor) (names : GoNames)
    (resp : CodeGenResponse) :
    generateChanStubs gp fd names resp =
      if fd.services = [] then .returns (none, resp)
      else if names.OutputFilenameFor fd ".pb.grpchan.go" ∈ resp.opened then .panics
      else
        match gp.render (buildFile gp names fd) with
        | .ok bytes =>
          .returns
            (none, ⟨resp.files ++ [⟨names.OutputFilenameFor fd ".pb.grpchan.go", bytes⟩]⟩)
        | .error e =>
          .returns
            (some e, ⟨resp.files ++ [⟨names.OutputFilenameFor fd ".pb.grpchan.go", ""⟩]⟩) := by
  by_cases h : fd.services = []
  · simp [generateChanStubs, h]
  · rw [generateChanStubs_of_services gp fd names resp h, if_neg h]
    by_cases hin : names.OutputFilenameFor fd ".pb.grpchan.go" ∈ resp.opened
    · simp [CodeGenResponse.OutputFile, hin]
    · simp only [CodeGenResponse.OutputFile, hin, if_false]
      unfold WriteGoFile
      cases hr : gp.render (buildFile gp names fd) with
      | error e => simp
      | ok bytes => simp [CodeGenResponse.write, modify_append_singleton]

theorem emittedMethod_unary (names : GoNames) (sd : ServiceDescriptor) (cc : TypeSpec)
    (k : Nat) (md : MethodDescriptor) (hc : md.clientStreaming = false)
    (hs : md.serverStreaming = false) :
    emittedMethod names sd cc k md = unaryMethod names sd cc (names.CamelCase md.name) md := by
  simp [emittedMethod, hc, hs]

theorem emittedMethod_server (names : GoNames) (sd : ServiceDescriptor) (cc : TypeSpec)
    (k : Nat) (md : MethodDescriptor) (hc : md.clientStreaming = false)
    (hs : md.serverStreaming = true) :
    emittedMethod names sd cc k md =
      serverStreamingMethod names sd cc (names.CamelCase md.name) k md := by
  simp [emittedMethod, hc, hs]

theorem emittedMethod_client (names : GoNames) (sd : ServiceDescriptor) (cc : TypeSpec)
    (k : Nat) (md : MethodDescriptor) (hc : md.clientStreaming = true) :
    emittedMethod names sd cc k md =
      clientStreamingMethod names sd cc (names.CamelCase md.name) k md := by
  simp [emittedMethod, hc]

/-! ## The claims -/

/-- C1: in the file built for a unit, the method declared for the method at
position `i` of service `j` carries, when the method is streaming, exactly one
index, written in `Streams[k]` on its first line, and `k` is the number of
streaming methods before position `i` in the same service; a unary method
carries no index. -/
theorem stream_index_counts_earlier_streams (gp : Gopoet) (names : GoNames)
    (fd : FileDescriptor) (q : Qualifier) (j i : Nat) (sd : ServiceDescriptor)
    (md : MethodDescriptor) (hj : fd.services[j]? = some sd) (hi : sd.methods[i]? = some md) :
    ∃ fs, (buildFile gp names fd).elements[declOffset fd j + 3 + i]? = some (.func fs) ∧
      (isStreaming md = true →
        emittedIndices fs = [streamsBefore sd.methods i] ∧
        (fs.body.head?).map (Line.render q) =
          some ("stream, err := c.ch.NewStream(ctx, &" ++
            q.symbol (names.GoNameOfServiceDesc sd) ++ ".Streams[" ++
            toString (streamsBefore sd.methods i) ++ "], \"" ++ wirePath sd md ++
            "\", opts...)\n")) ∧
      (isStreaming md = false → emittedIndices fs = []) := by
  refine ⟨_, buildFile_method gp names fd j i sd md hj hi, ?_, ?_⟩
  · intro hs
    cases hc : md.clientStreaming
    · have hss : md.serverStreaming = true := by simpa [isStreaming, hc] using hs
      simp [emittedMethod, hc, hss, serverStreamingMethod, NewMethod, FuncSpec.AddArg,
        FuncSpec.AddResult, FuncSpec.SetVariadic, FuncSpec.Printlnf, emittedIndices,
        render_newStream, wirePath]
    · simp [emittedMethod, hc, clientStreamingMethod, NewMethod, FuncSpec.AddArg,
        FuncSpec.AddResult, FuncSpec.SetVariadic, FuncSpec.Printlnf, emittedIndices,
        render_newStream, wirePath]
  · intro hs
    have hc : md.clientStreaming = false := by
      cases h : md.clientStreaming <;> simp [isStreaming, h] at hs ⊢
    have hss : md.serverStreaming = false := by
      cases h : md.serverStreaming <;> simp [isStreaming, h] at hs ⊢
    simp [emittedMethod, hc, hss, unaryMethod, NewMethod, FuncSpec.AddArg,
      FuncSpec.AddResult, FuncSpec.SetVariadic, FuncSpec.Printlnf, emittedIndices]

/-- Witness of C1: for the methods unary, server streaming, unary, bidi the
second method gets index 0 and the fourth gets index 1. -/
theorem stream_index_counts_earlier_streams_witness :
    (∃ fs, (buildFile exGopoet exNames exMixedFile).elements[8]? = some (.func fs) ∧
      emittedIndices fs = [0]) ∧
    (∃ fs, (buildFile exGopoet exNames exMixedFile).elements[10]? = some (.func fs) ∧
      emittedIndices fs = [1]) := by
  constructor
  · obtain ⟨fs, h, hs, _⟩ := stream_index_counts_earlier_streams exGopoet exNames exMixedFile
      exQualifier 1 1 exMixed exWatch rfl rfl
    exact ⟨fs, h, (hs rfl).1⟩
  · obtain ⟨fs, h, hs, _⟩ := stream_index_counts_earlier_streams exGopoet exNames exMixedFile
      exQualifier 1 3 exMixed exChat rfl rfl
    exact ⟨fs, h, (hs rfl).1⟩


/-- C2: the method declared for a method descriptor is fixed by its two
streaming flags: both false gives the unary declaration, which calls Invoke;
server streaming alone gives the server-streaming declaration, which calls
NewStream, SendMsg and CloseSend; client streaming, with either value of the
other flag, gives the client-or-bidi declaration, which calls NewStream only.
The shape read off the emitted body is the one the classification names, for
every pair of flags. -/
theorem method_shape_by_flags (gp : Gopoet) (names : GoNames) (fd : FileDescriptor)
    (j i : Nat) (sd : ServiceDescriptor) (md : MethodDescriptor)
    (hj : fd.services[j]? = some sd) (hi : sd.methods[i]? = some md) :
    ∃ fs, (buildFile gp names fd).elements[declOffset fd j + 3 + i]? = some (.func fs) ∧
      shapeOfOps (channelOps fs) = some (classify md) ∧
      (md.clientStreaming = false → md.serverStreaming = false →
        fs = unaryMethod names sd (holderType gp names sd) (names.CamelCase md.name) md ∧
        channelOps fs = [.Invoke]) ∧
      (md.clientStreaming = false → md.serverStreaming = true →
        fs = serverStreamingMethod names sd (holderType gp names sd)
          (names.CamelCase md.name) (streamsBefore sd.methods i) md ∧
        channelOps fs = [.NewStream, .SendMsg, .CloseSend]) ∧
      (md.clientStreaming = true →
        fs = clientStreamingMethod names sd (holderType gp names sd)
          (names.CamelCase md.name) (streamsBefore sd.methods i) md ∧
        channelOps fs = [.NewStream]) := by
  refine ⟨_, buildFile_method gp names fd j i sd md hj hi, ?_, ?_, ?_, ?_⟩
  · cases hc : md.clientStreaming <;> cases hs : md.serverStreaming <;>
      simp [emittedMethod, hc, hs, classify, channelOps_unaryMethod,
        channelOps_serverStreamingMethod, channelOps_clientStreamingMethod, shapeOfOps]
  · intro hc hs
    simp [emittedMethod, hc, hs, channelOps_unaryMethod]
  · intro hc hs
    simp [emittedMethod, hc, hs, channelOps_serverStreamingMethod]
  · intro hc
    simp [emittedMethod, hc, channelOps_clientStreamingMethod]

/-- Witness of C2: the bidi method of the sample service has the
client-or-bidi shape and calls NewStream only. -/
theorem method_shape_by_flags_witness :
    ∃ fs, (buildFile exGopoet exNames exMixedFile).elements[10]? = some (.func fs) ∧
      shapeOfOps (channelOps fs) = some .ClientOrBidiStreaming ∧
      channelOps fs = [.NewStream] := by
  obtain ⟨fs, h, hshape, _, _, hc⟩ := method_shape_by_flags exGopoet exNames exMixedFile
    1 3 exMixed exChat rfl rfl
  exact ⟨fs, h, hshape, (hc rfl).2⟩

/-- C3: the channel call of every generated method (Invoke for a unary
method, NewStream for a streaming one) is written with the wire path
slash, fully-qualified service name, slash, name of the method descriptor, in
double quotes; the name is the raw descriptor name, not the camel-cased one. -/
theorem wire_path_of_channel_call (gp : Gopoet) (names : GoNames) (fd : FileDescriptor)
    (q : Qualifier) (j i : Nat) (sd : ServiceDescriptor) (md : MethodDescriptor)
    (hj : fd.services[j]? = some sd) (hi : sd.methods[i]? = some md) :
    ∃ fs l, (buildFile gp names fd).elements[declOffset fd j + 3 + i]? = some (.func fs) ∧
      fs.body[if isStreaming md then 0 else 1]? = some l ∧
      lineOp l.format = some (if isStreaming md then .NewStream else .Invoke) ∧
      Line.render q l =
        if isStreaming md then
          "stream, err := c.ch.NewStream(ctx, &" ++ q.symbol (names.GoNameOfServiceDesc sd) ++
            ".Streams[" ++ toString (streamsBefore sd.methods i) ++ "], \"" ++
            ("/" ++ sd.fullyQualifiedName ++ "/" ++ md.name) ++ "\", opts...)\n"
        else
          "err := c.ch.Invoke(ctx, \"" ++ ("/" ++ sd.fullyQualifiedName ++ "/" ++ md.name) ++
            "\", in, out, opts...)\n" := by
  cases hc : md.clientStreaming
  · cases hs : md.serverStreaming
    · refine ⟨_, ⟨"err := c.ch.Invoke(ctx, \"/%s/%s\", in, out, opts...)",
        [.str sd.fullyQualifiedName, .str md.name]⟩,
        buildFile_method gp names fd j i sd md hj hi, ?_, ?_, ?_⟩
      · simp [emittedMethod, isStreaming, hc, hs, body_unaryMethod]
      · simp [isStreaming, hc, hs, lineOp_invoke]
      · simp [isStreaming, hc, hs, render_invoke]
    · refine ⟨_, ⟨"stream, err := c.ch.NewStream(ctx, &%s.Streams[%d], \"/%s/%s\", opts...)",
        [.symbol (names.GoNameOfServiceDesc sd), .int (streamsBefore sd.methods i),
          .str sd.fullyQualifiedName, .str md.name]⟩,
        buildFile_method gp names fd j i sd md hj hi, ?_, ?_, ?_⟩
      · simp [emittedMethod, isStreaming, hc, hs, body_serverStreamingMethod]
      · simp [isStreaming, hc, hs, lineOp_newStream]
      · simp [isStreaming, hc, hs, render_newStream]
  · refine ⟨_, ⟨"stream, err := c.ch.NewStream(ctx, &%s.Streams[%d], \"/%s/%s\", opts...)",
      [.symbol (names.GoNameOfServiceDesc sd), .int (streamsBefore sd.methods i),
        .str sd.fullyQualifiedName, .str md.name]⟩,
      buildFile_method gp names fd j i sd md hj hi, ?_, ?_, ?_⟩
    · simp [emittedMethod, isStreaming, hc, body_clientStreamingMethod]
    · simp [isStreaming, hc, lineOp_newStream]
    · simp [isStreaming, hc, render_newStream]

/-- Witness of C3: the service Echo with the method Say calls Invoke at the
wire path /Echo/Say. -/
theorem wire_path_of_channel_call_witness :
    ∃ fs l, (buildFile exGopoet exNames exEchoFile).elements[3]? = some (.func fs) ∧
      fs.body[1]? = some l ∧
      Line.render exQualifier l = "err := c.ch.Invoke(ctx, \"/Echo/Say\", in, out, opts...)\n" := by
  obtain ⟨fs, l, h, hl, _, hr⟩ := wire_path_of_channel_call exGopoet exNames exEchoFile
    exQualifier 0 0 exEcho exSay rfl rfl
  exact ⟨fs, l, h, hl, hr.trans (by decide)⟩

/-- C4: the body of every generated method reads as a statement sequence in
which every assignment from a channel operation is directly followed by the
check that returns nil and the error, SendMsg and CloseSend are called inside
such a check, and the only return with a nil error is the last statement.
Run against any channel, the body calls its operations in order up to the
first one that fails and returns nil with exactly that error; when none
fails it returns its value with a nil error. -/
theorem first_failure_returned_verbatim (gp : Gopoet) (names : GoNames) (fd : FileDescriptor)
    (j i : Nat) (sd : ServiceDescriptor) (md : MethodDescriptor)
    (hj : fd.services[j]? = some sd) (hi : sd.methods[i]? = some md) :
    ∃ fs ss, (buildFile gp names fd).elements[declOffset fd j + 3 + i]? = some (.func fs) ∧
      stmtsOf fs = some ss ∧ checkedAfterCall ss = true ∧ returnOkOnlyLast ss = true ∧
      ∀ chan : ChanOp → Option GoError,
        exec chan ss none [] =
          some (firstFailure chan (if isStreaming md then "x" else "out") (channelOps fs) []) := by
  cases hc : md.clientStreaming
  · cases hs : md.serverStreaming
    · refine ⟨_, [.plain, .call .Invoke, .checkErr, .returnOk "out"],
        buildFile_method gp names fd j i sd md hj hi, ?_, by decide, by decide, ?_⟩
      · simp [emittedMethod, hc, hs, stmtsOf_unaryMethod]
      · intro chan
        cases h : chan .Invoke <;>
          simp [emittedMethod, isStreaming, hc, hs, channelOps_unaryMethod, exec,
            firstFailure, h]
    · refine ⟨_, [.call .NewStream, .checkErr, .wrap, .callChecked .SendMsg,
          .callChecked .CloseSend, .returnOk "x"],
        buildFile_method gp names fd j i sd md hj hi, ?_, by decide, by decide, ?_⟩
      · simp [emittedMethod, hc, hs, stmtsOf_serverStreamingMethod]
      · intro chan
        cases h1 : chan .NewStream <;> cases h2 : chan .SendMsg <;>
          cases h3 : chan .CloseSend <;>
          simp [emittedMethod, isStreaming, hc, hs, channelOps_serverStreamingMethod, exec,
            firstFailure, h1, h2, h3]
  · refine ⟨_, [.call .NewStream, .checkErr, .wrap, .returnOk "x"],
      buildFile_method gp names fd j i sd md hj hi, ?_, by decide, by decide, ?_⟩
    · simp [emittedMethod, hc, stmtsOf_clientStreamingMethod]
    · intro chan
      cases h : chan .NewStream <;>
        simp [emittedMethod, isStreaming, hc, channelOps_clientStreamingMethod, exec,
          firstFailure, h]

/-- Witness of C4: in the server-streaming method of the sample service a
failing SendMsg ends the method with nil and that error, and CloseSend does
not run. -/
theorem first_failure_returned_verbatim_witness :
    ∃ fs ss, (buildFile exGopoet exNames exMixedFile).elements[8]? = some (.func fs) ∧
      stmtsOf fs = some ss ∧
      exec (fun op => if op = .SendMsg then some "send failed" else none) ss none [] =
        some ⟨none, some "send failed", [.NewStream, .SendMsg]⟩ := by
  obtain ⟨fs, ss, h, hss, _, _, hrun⟩ := first_failure_returned_verbatim exGopoet exNames
    exMixedFile 1 1 exMixed exWatch rfl rfl
  refine ⟨fs, ss, h, hss, (hrun _).trans ?_⟩
  have hfs : fs = emittedMethod exNames exMixed (holderType exGopoet exNames exMixed)
      (streamsBefore exMixed.methods 1) exWatch := by
    have := (buildFile_method exGopoet exNames exMixedFile 1 1 exMixed exWatch rfl rfl).symm.trans h
    simpa using this.symm
  subst hfs
  simp [emittedMethod, exWatch, channelOps_serverStreamingMethod, isStreaming, firstFailure]


/-- C5: for service `j` of a unit, with `S` the camel-cased service name, the
file holds a registration function named RegisterHandler followed by `S`, a
struct type named Unexport of `S` followed by ChannelClient whose only field
is `ch` of the channel type, a constructor named New, `S`, ChannelClient, and
for every method a method named by the camel-cased method name on a pointer
receiver of that struct type. -/
theorem generated_names (gp : Gopoet) (names : GoNames) (fd : FileDescriptor) (j : Nat)
    (sd : ServiceDescriptor) (hj : fd.services[j]? = some sd) :
    ∃ reg holder ctor,
      (buildFile gp names fd).elements[declOffset fd j]? = some (.func reg) ∧
      reg.name = "RegisterHandler" ++ names.CamelCase sd.name ∧ reg.receiver = none ∧
      (buildFile gp names fd).elements[declOffset fd j + 1]? = some (.typeDecl holder) ∧
      holder.name = gp.Unexport (names.CamelCase sd.name) ++ "ChannelClient" ∧
      holder.fields = [⟨"ch", typeOfChannel⟩] ∧
      (buildFile gp names fd).elements[declOffset fd j + 2]? = some (.func ctor) ∧
      ctor.name = "New" ++ names.CamelCase sd.name ++ "ChannelClient" ∧ ctor.receiver = none ∧
      ∀ i md, sd.methods[i]? = some md →
        ∃ fs, (buildFile gp names fd).elements[declOffset fd j + 3 + i]? = some (.func fs) ∧
          fs.name = names.CamelCase md.name ∧
          fs.receiver = some ⟨"c", holder, true⟩ := by
  refine ⟨registerFunc names sd, holderType gp names sd, constructorFunc gp names sd,
    ?_, ?_, ?_, ?_, ?_, ?_, ?_, ?_, ?_, ?_⟩
  · have := buildFile_getElem? gp names fd j 0 sd hj (by omega)
    simpa [serviceElems] using this
  · rw [registerFunc_eq]
  · rw [registerFunc_eq]
  · have := buildFile_getElem? gp names fd j 1 sd hj (by omega)
    simpa [serviceElems] using this
  · rw [holderType_eq]
  · rw [holderType_eq]
  · have := buildFile_getElem? gp names fd j 2 sd hj (by omega)
    simpa [serviceElems] using this
  · rw [constructorFunc_eq]
  · rw [constructorFunc_eq]
  · intro i md hi
    exact ⟨_, buildFile_method gp names fd j i sd md hj hi, emittedMethod_name _ _ _ _ _,
      emittedMethod_receiver _ _ _ _ _⟩

/-- Witness of C5: the names generated for the service Echo. -/
theorem generated_names_witness :
    ∃ reg holder ctor,
      (buildFile exGopoet exNames exEchoFile).elements[0]? = some (.func reg) ∧
      reg.name = "RegisterHandlerEcho" ∧
      (buildFile exGopoet exNames exEchoFile).elements[1]? = some (.typeDecl holder) ∧
      holder.name = "echoChannelClient" ∧
      (buildFile exGopoet exNames exEchoFile).elements[2]? = some (.func ctor) ∧
      ctor.name = "NewEchoChannelClient" := by
  obtain ⟨reg, holder, ctor, h0, n0, _, h1, n1, _, h2, n2, _, _⟩ :=
    generated_names exGopoet exNames exEchoFile 0 exEcho rfl
  exact ⟨reg, holder, ctor, h0, n0.trans (by decide), h1, n1.trans (by decide), h2,
    n2.trans (by decide)⟩

/-- C6: for a unit with at least one service the file handed to the writer
holds, for each service in descriptor order, one registration function, one
holder type, one constructor and then one method per method descriptor in
descriptor order, and nothing else, so that the number of its elements is the
sum over the services of three plus the number of methods. -/
theorem file_elements_per_service (gp : Gopoet) (names : GoNames) (fd : FileDescriptor)
    (resp : CodeGenResponse) (hne : fd.services ≠ []) :
    generateChanStubs gp fd names resp =
      (match resp.OutputFile (names.OutputFilenameFor fd ".pb.grpchan.go") with
      | .panics => .panics
      | .returns (resp2, out) =>
        .returns (WriteGoFile gp out (buildFile gp names fd) resp2)) ∧
    (buildFile gp names fd).elements.map (fun e => (declKind e, declName e)) =
      (fd.services.map (fun sd =>
        [(DeclKind.registration, "RegisterHandler" ++ names.CamelCase sd.name),
         (DeclKind.holderType, gp.Unexport (names.CamelCase sd.name) ++ "ChannelClient"),
         (DeclKind.constructor, "New" ++ names.CamelCase sd.name ++ "ChannelClient")] ++
        sd.methods.map (fun md => (DeclKind.method, names.CamelCase md.name)))).flatten ∧
    (buildFile gp names fd).elements.length =
      (fd.services.map (fun sd => 3 + sd.methods.length)).sum := by
  refine ⟨generateChanStubs_of_services gp fd names resp hne, ?_, ?_⟩
  · rw [buildFile_elements, List.map_flatten, List.map_map]
    congr 1
    apply List.map_congr_left
    intro sd _
    exact serviceElems_describe gp names sd
  · rw [buildFile_elements, List.length_flatten, List.map_map]
    congr 1
    apply List.map_congr_left
    intro sd _
    exact serviceElems_length gp names sd

/-- Witness of C6: the unit with the service Echo and its unary method Say
yields one registration function, one holder type, one constructor and one
method. -/
theorem file_elements_per_service_witness :
    (buildFile exGopoet exNames exEchoFile).elements.map (fun e => (declKind e, declName e)) =
      [(DeclKind.registration, "RegisterHandlerEcho"), (DeclKind.holderType, "echoChannelClient"),
       (DeclKind.constructor, "NewEchoChannelClient"), (DeclKind.method, "Say")] ∧
    (buildFile exGopoet exNames exEchoFile).elements.length = 4 := by
  obtain ⟨_, h, hl⟩ := file_elements_per_service exGopoet exNames exEchoFile ⟨[]⟩
    (by decide)
  exact ⟨h.trans (by decide), hl.trans (by decide)⟩


/-- C7: every generated method has `ctx` of the context type as its first
parameter and the variadic `opts` of the call-option type as its last, and
its channel call (Invoke for a unary method, NewStream for a streaming one)
is written with `ctx` as first argument and `opts...` as last argument; no
other line of the body mentions `ctx` or `opts`. -/
theorem ctx_first_opts_last (gp : Gopoet) (names : GoNames) (fd : FileDescriptor)
    (q : Qualifier) (j i : Nat) (sd : ServiceDescriptor) (md : MethodDescriptor)
    (hj : fd.services[j]? = some sd) (hi : sd.methods[i]? = some md) :
    ∃ fs l, (buildFile gp names fd).elements[declOffset fd j + 3 + i]? = some (.func fs) ∧
      fs.args.head? = some ⟨"ctx", typeOfContext⟩ ∧
      fs.args.getLast? = some ⟨"opts", typeOfCallOptions⟩ ∧
      fs.variadic = true ∧
      l ∈ fs.body ∧
      lineOp l.format = some (if isStreaming md then .NewStream else .Invoke) ∧
      Line.render q l =
        (if isStreaming md then "stream, err := c.ch.NewStream(" else "err := c.ch.Invoke(") ++
          "ctx, " ++
          (if isStreaming md then
            "&" ++ q.symbol (names.GoNameOfServiceDesc sd) ++ ".Streams[" ++
              toString (streamsBefore sd.methods i) ++ "], \"/" ++ sd.fullyQualifiedName ++
              "/" ++ md.name ++ "\""
          else "\"/" ++ sd.fullyQualifiedName ++ "/" ++ md.name ++ "\", in, out") ++
          ", opts...)\n" ∧
      (fs.body.map (fun l => l.format)).filter
          (fun t => occursIn "ctx" t || occursIn "opts" t) = [l.format] := by
  cases hc : md.clientStreaming
  · cases hs : md.serverStreaming
    · refine ⟨_, ⟨"err := c.ch.Invoke(ctx, \"/%s/%s\", in, out, opts...)",
        [.str sd.fullyQualifiedName, .str md.name]⟩,
        buildFile_method gp names fd j i sd md hj hi, ?_, ?_, ?_, ?_, ?_, ?_, ?_⟩
      · simp [emittedMethod, hc, hs]; rw [unaryMethod_eq]; rfl
      · simp [emittedMethod, hc, hs]; rw [unaryMethod_eq]; rfl
      · simp [emittedMethod, hc, hs]; rw [unaryMethod_eq]
      · simp [emittedMethod, hc, hs, body_unaryMethod]
      · simp [isStreaming, hc, hs, lineOp_invoke]
      · rw [render_invoke]
        apply String.ext
        simp [isStreaming, hc, hs]
      · rw [emittedMethod_unary _ _ _ _ _ hc hs, body_unaryMethod]
        simp only [List.map_cons, List.map_nil]
        decide
    · refine ⟨_, ⟨"stream, err := c.ch.NewStream(ctx, &%s.Streams[%d], \"/%s/%s\", opts...)",
        [.symbol (names.GoNameOfServiceDesc sd), .int (streamsBefore sd.methods i),
          .str sd.fullyQualifiedName, .str md.name]⟩,
        buildFile_method gp names fd j i sd md hj hi, ?_, ?_, ?_, ?_, ?_, ?_, ?_⟩
      · simp [emittedMethod, hc, hs]; rw [serverStreamingMethod_eq]; rfl
      · simp [emittedMethod, hc, hs]; rw [serverStreamingMethod_eq]; rfl
      · simp [emittedMethod, hc, hs]; rw [serverStreamingMethod_eq]
      · simp [emittedMethod, hc, hs, body_serverStreamingMethod]
      · simp [isStreaming, hc, hs, lineOp_newStream]
      · rw [render_newStream]
        apply String.ext
        simp [isStreaming, hc, hs]
      · rw [emittedMethod_server _ _ _ _ _ hc hs, body_serverStreamingMethod]
        simp only [List.map_cons, List.map_nil]
        decide
  · refine ⟨_, ⟨"stream, err := c.ch.NewStream(ctx, &%s.Streams[%d], \"/%s/%s\", opts...)",
      [.symbol (names.GoNameOfServiceDesc sd), .int (streamsBefore sd.methods i),
        .str sd.fullyQualifiedName, .str md.name]⟩,
      buildFile_method gp names fd j i sd md hj hi, ?_, ?_, ?_, ?_, ?_, ?_, ?_⟩
    · simp [emittedMethod, hc]; rw [clientStreamingMethod_eq]; rfl
    · simp [emittedMethod, hc]; rw [clientStreamingMethod_eq]; rfl
    · simp [emittedMethod, hc]; rw [clientStreamingMethod_eq]
    · simp [emittedMethod, hc, body_clientStreamingMethod]
    · simp [isStreaming, hc, lineOp_newStream]
    · rw [render_newStream]
      apply String.ext
      simp [isStreaming, hc]
    · rw [emittedMethod_client _ _ _ _ _ hc, body_clientStreamingMethod]
      simp only [List.map_cons, List.map_nil]
      decide

/-- Witness of C7: the parameters of the method Say of the service Echo. -/
theorem ctx_first_opts_last_witness :
    ∃ fs, (buildFile exGopoet exNames exEchoFile).elements[3]? = some (.func fs) ∧
      fs.args.head? = some ⟨"ctx", typeOfContext⟩ ∧
      fs.args.getLast? = some ⟨"opts", typeOfCallOptions⟩ ∧ fs.variadic = true := by
  obtain ⟨fs, _, h, h1, h2, h3, _⟩ := ctx_first_opts_last exGopoet exNames exEchoFile
    exQualifier 0 0 exEcho exSay rfl rfl
  exact ⟨fs, h, h1, h2, h3⟩


/-- C8: the body of a server-streaming method that is not client streaming is,
in this order and each once: open the stream with NewStream and check the
error, wrap the raw stream in the stream-client implementation, SendMsg with
the input parameter `in`, CloseSend, and last `return x, nil`.  The wrapper is
returned only on the run in which NewStream, SendMsg and CloseSend all
succeed. -/
theorem server_streaming_sends_then_closes (gp : Gopoet) (names : GoNames)
    (fd : FileDescriptor) (q : Qualifier) (j i : Nat) (sd : ServiceDescriptor)
    (md : MethodDescriptor) (hj : fd.services[j]? = some sd) (hi : sd.methods[i]? = some md)
    (hc : md.clientStreaming = false) (hs : md.serverStreaming = true) :
    ∃ fs, (buildFile gp names fd).elements[declOffset fd j + 3 + i]? = some (.func fs) ∧
      fs.args = [⟨"ctx", typeOfContext⟩, ⟨"in", names.GoTypeOfRequest md⟩,
        ⟨"opts", typeOfCallOptions⟩] ∧
      stmtsOf fs = some [.call .NewStream, .checkErr, .wrap, .callChecked .SendMsg,
        .callChecked .CloseSend, .returnOk "x"] ∧
      (fs.body[4]?).map (Line.render q) =
        some ("x := &" ++ q.typeName (names.GoTypeForStreamClientImpl md) ++
          "\x7bstream\x7d\n") ∧
      (fs.body[5]?).map (fun l => l.format) =
        some "if err := x.ClientStream.SendMsg(in); err != nil \x7b" ∧
      (∀ chan : ChanOp → Option GoError,
        chan .NewStream = none → chan .SendMsg = none → chan .CloseSend = none →
        exec chan [.call .NewStream, .checkErr, .wrap, .callChecked .SendMsg,
          .callChecked .CloseSend, .returnOk "x"] none [] =
          some ⟨some "x", none, [.NewStream, .SendMsg, .CloseSend]⟩) ∧
      (∀ (chan : ChanOp → Option GoError) (o : Outcome),
        exec chan [.call .NewStream, .checkErr, .wrap, .callChecked .SendMsg,
          .callChecked .CloseSend, .returnOk "x"] none [] = some o →
        o.value ≠ none →
        chan .NewStream = none ∧ chan .SendMsg = none ∧ chan .CloseSend = none) := by
  refine ⟨_, buildFile_method gp names fd j i sd md hj hi, ?_, ?_, ?_, ?_, ?_, ?_⟩
  · rw [emittedMethod_server _ _ _ _ _ hc hs, serverStreamingMethod_eq]
  · rw [emittedMethod_server _ _ _ _ _ hc hs, stmtsOf_serverStreamingMethod]
  · rw [emittedMethod_server _ _ _ _ _ hc hs, body_serverStreamingMethod]
    simp [render_wrap]
  · rw [emittedMethod_server _ _ _ _ _ hc hs, body_serverStreamingMethod]
    simp
  · intro chan h1 h2 h3
    simp [exec, h1, h2, h3]
  · intro chan o
    cases h1 : chan .NewStream <;> cases h2 : chan .SendMsg <;> cases h3 : chan .CloseSend <;>
      simp [exec, h1, h2, h3] <;> intro ho <;> subst ho <;> simp

/-- Witness of C8: the server-streaming method Watch of the sample service. -/
theorem server_streaming_sends_then_closes_witness :
    ∃ fs, (buildFile exGopoet exNames exMixedFile).elements[8]? = some (.func fs) ∧
      stmtsOf fs = some [.call .NewStream, .checkErr, .wrap, .callChecked .SendMsg,
        .callChecked .CloseSend, .returnOk "x"] := by
  obtain ⟨fs, h, _, hss, _⟩ := server_streaming_sends_then_closes exGopoet exNames
    exMixedFile exQualifier 1 1 exMixed exWatch rfl rfl rfl rfl
  exact ⟨fs, h, hss⟩

/-- C9: a method with the client-streaming flag is declared with exactly the
two parameters `ctx` and variadic `opts`; its body opens the stream, checks
the error, wraps the stream and returns the wrapper, with no SendMsg and no
CloseSend.  The declaration does not read the server-streaming flag: any
client-streaming method with the same descriptor name and the same generated
stream types, at the same counter, makes the loop body add this very
declaration and advance the counter by one. -/
theorem client_streaming_sends_nothing (gp : Gopoet) (names : GoNames) (fd : FileDescriptor)
    (j i : Nat) (sd : ServiceDescriptor) (md : MethodDescriptor)
    (hj : fd.services[j]? = some sd) (hi : sd.methods[i]? = some md)
    (hc : md.clientStreaming = true) :
    ∃ fs, (buildFile gp names fd).elements[declOffset fd j + 3 + i]? = some (.func fs) ∧
      fs.args = [⟨"ctx", typeOfContext⟩, ⟨"opts", typeOfCallOptions⟩] ∧
      fs.variadic = true ∧
      channelOps fs = [.NewStream] ∧
      stmtsOf fs = some [.call .NewStream, .checkErr, .wrap, .returnOk "x"] ∧
      ∀ (f : GoFile) (md2 : MethodDescriptor), md2.clientStreaming = true →
        md2.name = md.name →
        names.GoTypeForStreamClient md2 = names.GoTypeForStreamClient md →
        names.GoTypeForStreamClientImpl md2 = names.GoTypeForStreamClientImpl md →
        methodStep names sd (holderType gp names sd) (f, streamsBefore sd.methods i) md2 =
          (f.AddElement (.func fs), streamsBefore sd.methods i + 1) := by
  refine ⟨_, buildFile_method gp names fd j i sd md hj hi, ?_, ?_, ?_, ?_, ?_⟩
  · rw [emittedMethod_client _ _ _ _ _ hc, clientStreamingMethod_eq]
  · rw [emittedMethod_client _ _ _ _ _ hc, clientStreamingMethod_eq]
  · rw [emittedMethod_client _ _ _ _ _ hc, channelOps_clientStreamingMethod]
  · rw [emittedMethod_client _ _ _ _ _ hc, stmtsOf_clientStreamingMethod]
  · intro f md2 hc2 hn ht hti
    rw [methodStep_eq, emittedMethod_client _ _ _ _ _ hc, emittedMethod_client _ _ _ _ _ hc2]
    simp [isStreaming, hc2, clientStreamingMethod, hn, ht, hti]

/-- Witness of C9: the bidi method Chat of the sample service and the same
method with the server-streaming flag cleared give one declaration. -/
theorem client_streaming_sends_nothing_witness :
    ∃ fs, (buildFile exGopoet exNames exMixedFile).elements[10]? = some (.func fs) ∧
      fs.args = [⟨"ctx", typeOfContext⟩, ⟨"opts", typeOfCallOptions⟩] ∧
      channelOps fs = [.NewStream] ∧
      methodStep exNames exMixed (holderType exGopoet exNames exMixed)
          (NewGoFile "" "" "", 1) { exChat with serverStreaming := false } =
        ((NewGoFile "" "" "").AddElement (.func fs), 2) := by
  obtain ⟨fs, h, ha, _, hops, _, hsame⟩ := client_streaming_sends_nothing exGopoet exNames
    exMixedFile 1 3 exMixed exChat rfl rfl rfl
  exact ⟨fs, h, ha, hops,
    hsame (NewGoFile "" "" "") { exChat with serverStreaming := false } rfl rfl rfl rfl⟩

/-- Counterexample to C10: the unit `echo.proto` has a service, its output
name has been opened in the response before, and the call panics in
`resp.OutputFile`: it returns nothing and registers no file. -/
theorem taken_output_name_panics :
    exEchoFile.services ≠ [] ∧
      generateChanStubs exGopoet exEchoFile exNames ⟨[⟨"echo.pb.grpchan.go", "package echo"⟩]⟩ =
        .panics := by
  decide

/-- C10, amended: a unit without services returns no error and leaves the
response as it was.  A unit with at least one service whose output name has
not been opened in the response returns with exactly one more file, under
that name, after the files already there, whether or not the write succeeds.
When the output name has been opened before, the call panics in
`resp.OutputFile` and returns nothing.  Whenever the call returns, the
response has gained a file exactly when the unit has a service. -/
theorem output_file_iff_services (gp : Gopoet) (fd : FileDescriptor) (names : GoNames)
    (resp : CodeGenResponse) :
    (fd.services = [] → generateChanStubs gp fd names resp = .returns (none, resp)) ∧
    (fd.services ≠ [] → names.OutputFilenameFor fd ".pb.grpchan.go" ∉ resp.opened →
      ∃ err content, generateChanStubs gp fd names resp =
        .returns (err,
          ⟨resp.files ++ [⟨names.OutputFilenameFor fd ".pb.grpchan.go", content⟩]⟩)) ∧
    (fd.services ≠ [] → names.OutputFilenameFor fd ".pb.grpchan.go" ∈ resp.opened →
      generateChanStubs gp fd names resp = .panics) ∧
    (∀ err resp2, generateChanStubs gp fd names resp = .returns (err, resp2) →
      resp2.files.length = resp.files.length + (if fd.services = [] then 0 else 1) ∧
      (resp2 ≠ resp ↔ fd.services ≠ [])) := by
  rw [generateChanStubs_eq]
  by_cases h : fd.services = []
  · simp only [h, if_true, true_implies, ne_eq, not_true_eq_false, false_implies, true_and]
    intro err resp2 he
    simp only [GoRun.returns.injEq, Prod.mk.injEq] at he
    obtain ⟨_, rfl⟩ := he
    simp
  · simp only [h, if_false, false_implies, true_and, ne_eq, not_false_eq_true, true_implies]
    refine ⟨?_, ?_, ?_⟩
    · intro hfree
      simp only [hfree, if_false]
      cases gp.render (buildFile gp names fd) with
      | error e => exact ⟨_, _, rfl⟩
      | ok bytes => exact ⟨_, _, rfl⟩
    · intro htaken
      simp [htaken]
    · intro err resp2 he
      by_cases hin : names.OutputFilenameFor fd ".pb.grpchan.go" ∈ resp.opened
      · simp [hin] at he
      · simp only [hin, if_false] at he
        have hfiles : ∃ content, resp2.files =
            resp.files ++ [⟨names.OutputFilenameFor fd ".pb.grpchan.go", content⟩] := by
          cases hr : gp.render (buildFile gp names fd) with
          | error e =>
            rw [hr] at he
            simp only [GoRun.returns.injEq, Prod.mk.injEq] at he
            exact ⟨_, by rw [← he.2]⟩
          | ok bytes =>
            rw [hr] at he
            simp only [GoRun.returns.injEq, Prod.mk.injEq] at he
            exact ⟨_, by rw [← he.2]⟩
        obtain ⟨content, hf⟩ := hfiles
        refine ⟨by simp [hf], ?_⟩
        constructor
        · intro _
          trivial
        · intro _ hcontra
          have := congrArg (fun r => r.files.length) hcontra
          simp [hf] at this

/-- Witness of C10, amended: the unit without services leaves the response
unchanged, and the unit with the service Echo registers the one file
`echo.pb.grpchan.go` in an empty response. -/
theorem output_file_iff_services_witness :
    generateChanStubs exGopoet exEmptyFile exNames ⟨[]⟩ = .returns (none, ⟨[]⟩) ∧
    (∃ err content, generateChanStubs exGopoet exEchoFile exNames ⟨[]⟩ =
      .returns (err, ⟨[⟨"echo.pb.grpchan.go", content⟩]⟩)) := by
  refine ⟨(output_file_iff_services exGopoet exEmptyFile exNames ⟨[]⟩).1 rfl, ?_⟩
  obtain ⟨err, content, h⟩ := (output_file_iff_services exGopoet exEchoFile exNames ⟨[]⟩).2.1
    (by decide) (by decide)
  have hn : exNames.OutputFilenameFor exEchoFile ".pb.grpchan.go" = "echo.pb.grpchan.go" := by
    decide
  exact ⟨err, content, by rw [h, hn]; rfl⟩

/-! ## Runs over a request -/

theorem sprintf_errorf (a b : String) : Sprintf "%s: %v" [a, b] = a ++ ": " ++ b := by
  apply String.ext
  simp [Sprintf, sprintfAux]

theorem generateChanStubs_fresh (gp : Gopoet) (fd : FileDescriptor) (names : GoNames)
    (resp : CodeGenResponse) (h : fd.services = [] ∨ outputName names fd ∉ resp.opened) :
    generateChanStubs gp fd names resp =
      .returns (unitError gp names fd, ⟨resp.files ++ unitOutput gp names fd⟩) := by
  rw [generateChanStubs_eq]
  unfold unitError unitOutput
  by_cases hs : fd.services = []
  · simp [hs]
  · have hfree : names.OutputFilenameFor fd ".pb.grpchan.go" ∉ resp.opened := by
      rcases h with h | h
      · exact absurd h hs
      · exact h
    simp only [hs, hfree, if_false]
    cases gp.render (buildFile gp names fd) <;> rfl

theorem noClash_cons (gp : Gopoet) (names : GoNames) (resp : CodeGenResponse)
    (fd : FileDescriptor) (rest : List FileDescriptor) (h : noClash names resp (fd :: rest)) :
    (fd.services = [] ∨ outputName names fd ∉ resp.opened) ∧
      noClash names ⟨resp.files ++ unitOutput gp names fd⟩ rest := by
  obtain ⟨hnd, hfree⟩ := h
  by_cases hs : fd.services = []
  · refine ⟨Or.inl hs, ?_⟩
    simp only [outputNames, List.map_cons, hs, if_true, List.flatten_cons,
      List.nil_append] at hnd hfree
    exact ⟨hnd, by simpa [unitOutput, hs, outputNames] using hfree⟩
  · simp only [outputNames, List.map_cons, hs, if_false, List.flatten_cons,
      List.singleton_append, List.nodup_cons, List.mem_cons, forall_eq_or_imp] at hnd hfree
    refine ⟨Or.inr hfree.1, hnd.2, ?_⟩
    intro n hn
    simp only [CodeGenResponse.opened, unitOutput, hs, if_false, List.map_append,
      List.map_cons, List.map_nil, List.mem_append, List.mem_singleton, not_or]
    refine ⟨hfree.2 n hn, ?_⟩
    intro he
    exact hnd.1 (he ▸ hn)

theorem doCodeGenLoop_ok (gp : Gopoet) (names : GoNames) (fds : List FileDescriptor)
    (resp : CodeGenResponse) (hc : noClash names resp fds)
    (h : ∀ fd ∈ fds, unitError gp names fd = none) :
    doCodeGenLoop gp names fds resp =
      .returns (none, ⟨resp.files ++ (fds.map (unitOutput gp names)).flatten⟩) := by
  induction fds generalizing resp with
  | nil => simp [doCodeGenLoop]
  | cons fd rest ih =>
    have h0 : unitError gp names fd = none := h fd (List.mem_cons_self _ _)
    have hr : ∀ x ∈ rest, unitError gp names x = none :=
      fun x hx => h x (List.mem_cons_of_mem _ hx)
    obtain ⟨hfree, hrest⟩ := noClash_cons gp names resp fd rest hc
    rw [doCodeGenLoop, generateChanStubs_fresh gp fd names resp hfree, h0]
    simp only
    rw [ih _ hrest hr]
    simp

theorem doCodeGenLoop_fail (gp : Gopoet) (names : GoNames)
    (pre : List FileDescriptor) (fd : FileDescriptor) (post : List FileDescriptor)
    (resp : CodeGenResponse) (e : GoError) (hc : noClash names resp (pre ++ [fd]))
    (hpre : ∀ x ∈ pre, unitError gp names x = none) (hfail : unitError gp names fd = some e) :
    doCodeGenLoop gp names (pre ++ fd :: post) resp =
      .returns (some (fd.name ++ ": " ++ e),
        ⟨resp.files ++ ((pre ++ [fd]).map (unitOutput gp names)).flatten⟩) := by
  induction pre generalizing resp with
  | nil =>
    obtain ⟨hfree, _⟩ := noClash_cons gp names resp fd [] hc
    rw [List.nil_append, doCodeGenLoop, generateChanStubs_fresh gp fd names resp hfree, hfail]
    simp [sprintf_errorf]
  | cons x rest ih =>
    have h0 : unitError gp names x = none := hpre x (List.mem_cons_self _ _)
    have hr : ∀ y ∈ rest, unitError gp names y = none :=
      fun y hy => hpre y (List.mem_cons_of_mem _ hy)
    obtain ⟨hfree, hrest⟩ := noClash_cons gp names resp x (rest ++ [fd]) hc
    rw [List.cons_append, doCodeGenLoop, generateChanStubs_fresh gp x names resp hfree, h0]
    simp only
    rw [ih _ hrest hr]
    simp

/-- Counterexample to C11: two units of one package with the same base name
ask for the same output file.  Neither fails on its own, and the run over
both does not return at all: it panics in `resp.OutputFile` on the second
unit, so it returns neither no error nor one error. -/
theorem same_output_name_run_panics :
    generateChanStubs exGopoet exEchoFileA exDirNames ⟨[]⟩ =
        .returns (none, ⟨[⟨"echo/echo.pb.grpchan.go",
          "Code generated by protoc-gen-grpchan. DO NOT EDIT.\nsource: a/echo.proto\n"⟩]⟩) ∧
      generateChanStubs exGopoet exEchoFileB exDirNames ⟨[]⟩ =
        .returns (none, ⟨[⟨"echo/echo.pb.grpchan.go",
          "Code generated by protoc-gen-grpchan. DO NOT EDIT.\nsource: b/echo.proto\n"⟩]⟩) ∧
      doCodeGen exGopoet exDirNames ⟨[exEchoFileA, exEchoFileB]⟩ ⟨[]⟩ = .panics := by
  decide

/-- C11, amended: take a run in which the units up to the first failing one
(all units, when none fails) ask for pairwise different output names, none
opened in the response before, so that `resp.OutputFile` does not panic.
The run stops at the first unit whose generation fails: the units before it
have been processed in request order, the units after it add nothing to the
response and do not change the result, and the run returns the one error of
that unit, with the name of the unit in front.  When no unit fails the run
returns no error and the response holds the output of every unit in request
order. -/
theorem run_stops_at_first_failure (gp : Gopoet) (names : GoNames) (resp : CodeGenResponse) :
    (∀ (pre : List FileDescriptor) (fd : FileDescriptor) (post : List FileDescriptor)
        (e : GoError),
      noClash names resp (pre ++ [fd]) →
      (∀ x ∈ pre, unitError gp names x = none) → unitError gp names fd = some e →
      doCodeGen gp names ⟨pre ++ fd :: post⟩ resp =
          .returns (some (fd.name ++ ": " ++ e),
            ⟨resp.files ++ ((pre ++ [fd]).map (unitOutput gp names)).flatten⟩) ∧
        doCodeGen gp names ⟨pre ++ fd :: post⟩ resp = doCodeGen gp names ⟨pre ++ [fd]⟩ resp) ∧
    (∀ fds : List FileDescriptor, noClash names resp fds →
      (∀ x ∈ fds, unitError gp names x = none) →
      doCodeGen gp names ⟨fds⟩ resp =
        .returns (none, ⟨resp.files ++ (fds.map (unitOutput gp names)).flatten⟩)) := by
  constructor
  · intro pre fd post e hc hpre hfail
    unfold doCodeGen
    simp only
    rw [doCodeGenLoop_fail gp names pre fd post resp e hc hpre hfail,
      doCodeGenLoop_fail gp names pre fd [] resp e hc hpre hfail]
    exact ⟨rfl, rfl⟩
  · intro fds hc h
    exact doCodeGenLoop_ok gp names fds resp hc h

/-- Witness of C11, amended: of two units whose first fails, the second adds
no output and the run returns one error. -/
theorem run_stops_at_first_failure_witness :
    doCodeGen exFailingGopoet exNames ⟨[exEchoFile, exMixedFile]⟩ ⟨[]⟩ =
      .returns (some "echo.proto: write failed", ⟨[⟨"echo.pb.grpchan.go", ""⟩]⟩) := by
  have h := ((run_stops_at_first_failure exFailingGopoet exNames ⟨[]⟩).1 [] exEchoFile
    [exMixedFile] "write failed" (by unfold noClash; decide) (by simp) (by decide)).1
  exact h.trans (by decide)

/-- Counterexample to C12: the renderer fails with `write failed` on the unit
`echo.proto`, and the run surfaces `echo.proto: write failed`, which is not
that error. -/
theorem surfaced_error_is_prefixed :
    exFailingGopoet.render (buildFile exFailingGopoet exNames exEchoFile) =
        .error "write failed" ∧
      doCodeGen exFailingGopoet exNames ⟨[exEchoFile]⟩ ⟨[]⟩ =
        .returns (some "echo.proto: write failed", ⟨[⟨"echo.pb.grpchan.go", ""⟩]⟩) ∧
      ∀ resp2, doCodeGen exFailingGopoet exNames ⟨[exEchoFile]⟩ ⟨[]⟩ ≠
        .returns (some "write failed", resp2) :=
  ⟨rfl, by decide, fun resp2 h => by
    have h2 : doCodeGen exFailingGopoet exNames ⟨[exEchoFile]⟩ ⟨[]⟩ =
        .returns (some "echo.proto: write failed", ⟨[⟨"echo.pb.grpchan.go", ""⟩]⟩) := by
      decide
    rw [h2] at h
    simp only [GoRun.returns.injEq, Prod.mk.injEq, Option.some.injEq] at h
    exact absurd h.1 (by decide)⟩

/-- C12, amended: when the run reaches a unit, no `resp.OutputFile` call
having panicked, and the write of that unit is the first to fail, with error
`e`, the run surfaces a new error whose message is the name of that unit, a
colon and a space, and then the message of `e`. -/
theorem surfaced_error_names_unit (gp : Gopoet) (names : GoNames)
    (pre : List FileDescriptor) (fd : FileDescriptor) (post : List FileDescriptor)
    (resp : CodeGenResponse) (e : GoError) (hc : noClash names resp (pre ++ [fd]))
    (hpre : ∀ x ∈ pre, x.services = [] ∨ ∃ bytes, gp.render (buildFile gp names x) = .ok bytes)
    (hne : fd.services ≠ []) (hfail : gp.render (buildFile gp names fd) = .error e) :
    ∃ resp2, doCodeGen gp names ⟨pre ++ fd :: post⟩ resp =
      .returns (some (fd.name ++ ": " ++ e), resp2) := by
  have h1 : ∀ x ∈ pre, unitError gp names x = none := by
    intro x hx
    unfold unitError
    rcases hpre x hx with h | ⟨bytes, h⟩
    · simp [h]
    · simp [h]
  have h2 : unitError gp names fd = some e := by
    unfold unitError
    simp [hne, hfail]
  unfold doCodeGen
  simp only
  rw [doCodeGenLoop_fail gp names pre fd post resp e hc h1 h2]
  exact ⟨_, rfl⟩

/-- Witness of C12, amended: the failing write on the unit `echo.proto`. -/
theorem surfaced_error_names_unit_witness :
    ∃ resp2, doCodeGen exFailingGopoet exNames ⟨[exEmptyFile, exEchoFile, exMixedFile]⟩ ⟨[]⟩ =
      .returns (some ("echo.proto" ++ ": " ++ "write failed"), resp2) :=
  surfaced_error_names_unit exFailingGopoet exNames [exEmptyFile] exEchoFile [exMixedFile]
    ⟨[]⟩ "write failed" (by unfold noClash; decide) (by simp [exEmptyFile]) (by decide) rfl

/-- C13: generating a unit returns an error exactly when the unit has a
service and the call of `WriteGoFile` that it then makes fails, and the error
returned is the error of that call.  The call is made when `resp.OutputFile`
has returned a writer, that is when the output name was not opened before,
and it fails exactly when the renderer does.  The unit returns no error when
it has no service or the call succeeds, and it returns nothing, panicking in
`resp.OutputFile`, when it has a service and the output name was opened
before; building the file never produces an error. -/
theorem error_iff_write_fails (gp : Gopoet) (fd : FileDescriptor) (names : GoNames)
    (resp : CodeGenResponse) :
    (∀ e : GoError, (∃ resp2, generateChanStubs gp fd names resp = .returns (some e, resp2)) ↔
      (fd.services ≠ [] ∧ ∃ resp1 out,
        resp.OutputFile (names.OutputFilenameFor fd ".pb.grpchan.go") = .returns (resp1, out) ∧
        (WriteGoFile gp out (buildFile gp names fd) resp1).1 = some e)) ∧
    (∀ e : GoError,
      (∃ resp1 out,
        resp.OutputFile (names.OutputFilenameFor fd ".pb.grpchan.go") = .returns (resp1, out) ∧
        (WriteGoFile gp out (buildFile gp names fd) resp1).1 = some e) ↔
      (names.OutputFilenameFor fd ".pb.grpchan.go" ∉ resp.opened ∧
        gp.render (buildFile gp names fd) = .error e)) ∧
    ((∃ resp2, generateChanStubs gp fd names resp = .returns (none, resp2)) ↔
      (fd.services = [] ∨
        (names.OutputFilenameFor fd ".pb.grpchan.go" ∉ resp.opened ∧
          ∃ bytes, gp.render (buildFile gp names fd) = .ok bytes))) ∧
    (generateChanStubs gp fd names resp = .panics ↔
      (fd.services ≠ [] ∧ names.OutputFilenameFor fd ".pb.grpchan.go" ∈ resp.opened)) := by
  have hwrite : ∀ e : GoError,
      (∃ resp1 out,
        resp.OutputFile (names.OutputFilenameFor fd ".pb.grpchan.go") = .returns (resp1, out) ∧
        (WriteGoFile gp out (buildFile gp names fd) resp1).1 = some e) ↔
      (names.OutputFilenameFor fd ".pb.grpchan.go" ∉ resp.opened ∧
        gp.render (buildFile gp names fd) = .error e) := by
    intro e
    by_cases hin : names.OutputFilenameFor fd ".pb.grpchan.go" ∈ resp.opened
    · simp [CodeGenResponse.OutputFile, hin]
    · simp only [CodeGenResponse.OutputFile, hin, if_false, GoRun.returns.injEq,
        Prod.mk.injEq, not_false_eq_true, true_and]
      unfold WriteGoFile
      cases hr : gp.render (buildFile gp names fd) with
      | error e0 =>
        constructor
        · rintro ⟨resp1, out, _, h⟩
          simpa using h
        · intro h
          exact ⟨_, _, ⟨rfl, rfl⟩, by simpa using h⟩
      | ok bytes =>
        constructor
        · rintro ⟨resp1, out, _, h⟩
          simp at h
        · intro h
          simp at h
  refine ⟨?_, hwrite, ?_, ?_⟩
  · intro e
    rw [hwrite e, generateChanStubs_eq]
    by_cases h : fd.services = []
    · simp [h]
    · by_cases hin : names.OutputFilenameFor fd ".pb.grpchan.go" ∈ resp.opened
      · simp [h, hin]
      · simp only [h, hin, if_false, ne_eq, not_false_eq_true, true_and]
        cases hr : gp.render (buildFile gp names fd) with
        | error e0 => simp
        | ok bytes => simp
  · rw [generateChanStubs_eq]
    by_cases h : fd.services = []
    · simp [h]
    · by_cases hin : names.OutputFilenameFor fd ".pb.grpchan.go" ∈ resp.opened
      · simp [h, hin]
      · simp only [h, hin, if_false, false_or, not_false_eq_true, true_and]
        cases hr : gp.render (buildFile gp names fd) with
        | error e0 => simp
        | ok bytes => simp
  · rw [generateChanStubs_eq]
    by_cases h : fd.services = []
    · simp [h]
    · by_cases hin : names.OutputFilenameFor fd ".pb.grpchan.go" ∈ resp.opened
      · simp [h, hin]
      · simp only [h, hin, if_false, ne_eq, not_false_eq_true, true_and, iff_false]
        cases hr : gp.render (buildFile gp names fd) with
        | error e0 => simp
        | ok bytes => simp

/-- Witness of C13: the failing write on the unit with the service Echo, the
successful write, and the unit without services. -/
theorem error_iff_write_fails_witness :
    (∃ resp2, generateChanStubs exFailingGopoet exEchoFile exNames ⟨[]⟩ =
      .returns (some "write failed", resp2)) ∧
    (∃ resp2, generateChanStubs exGopoet exEchoFile exNames ⟨[]⟩ = .returns (none, resp2)) ∧
    (∃ resp2, generateChanStubs exFailingGopoet exEmptyFile exNames ⟨[]⟩ =
      .returns (none, resp2)) :=
  ⟨((error_iff_write_fails exFailingGopoet exEchoFile exNames ⟨[]⟩).1 "write failed").2
      ⟨by decide, _, _, rfl, rfl⟩,
    (error_iff_write_fails exGopoet exEchoFile exNames ⟨[]⟩).2.2.1.2
      (Or.inr ⟨by decide, _, rfl⟩),
    (error_iff_write_fails exFailingGopoet exEmptyFile exNames ⟨[]⟩).2.2.1.2 (Or.inl rfl)⟩

/-- Counterexample to C14: generation of the unit `echo.proto` fails, and the
response, empty before the call, holds the file `echo.pb.grpchan.go` after
it. -/
theorem failed_unit_leaves_file :
    generateChanStubs exFailingGopoet exEchoFile exNames ⟨[]⟩ =
        .returns (some "write failed", ⟨[⟨"echo.pb.grpchan.go", ""⟩]⟩) ∧
      ¬ ∃ err, generateChanStubs exFailingGopoet exEchoFile exNames ⟨[]⟩ =
        .returns (err, ⟨[]⟩) := by
  have h1 : generateChanStubs exFailingGopoet exEchoFile exNames ⟨[]⟩ =
      .returns (some "write failed", ⟨[⟨"echo.pb.grpchan.go", ""⟩]⟩) := by decide
  refine ⟨h1, ?_⟩
  rintro ⟨err, h⟩
  rw [h1] at h
  simp at h

/-- C14, amended: when generation of a unit fails, the files registered
before the call are still there, unchanged and in order, and after them the
response holds one more file, registered under the output name of the unit
before the write was tried, with nothing written to it. -/
theorem failed_unit_registers_empty_file (gp : Gopoet) (fd : FileDescriptor) (names : GoNames)
    (resp resp2 : CodeGenResponse) (e : GoError)
    (hfail : generateChanStubs gp fd names resp = .returns (some e, resp2)) :
    resp2.files = resp.files ++ [⟨names.OutputFilenameFor fd ".pb.grpchan.go", ""⟩] := by
  rw [generateChanStubs_eq] at hfail
  by_cases h : fd.services = []
  · simp [h] at hfail
  · by_cases hin : names.OutputFilenameFor fd ".pb.grpchan.go" ∈ resp.opened
    · simp [h, hin] at hfail
    · simp only [h, hin, if_false] at hfail
      cases hr : gp.render (buildFile gp names fd) with
      | error e0 =>
        rw [hr] at hfail
        simp only [GoRun.returns.injEq, Prod.mk.injEq] at hfail
        rw [← hfail.2]
      | ok bytes =>
        rw [hr] at hfail
        simp at hfail

/-- Witness of C14, amended: the failing unit `echo.proto` after one file. -/
theorem failed_unit_registers_empty_file_witness :
    generateChanStubs exFailingGopoet exEchoFile exNames ⟨[⟨"a.go", "x"⟩]⟩ =
        .returns (some "write failed", ⟨[⟨"a.go", "x"⟩, ⟨"echo.pb.grpchan.go", ""⟩]⟩) ∧
      (⟨[⟨"a.go", "x"⟩, ⟨"echo.pb.grpchan.go", ""⟩]⟩ : CodeGenResponse).files =
        [⟨"a.go", "x"⟩] ++ [⟨exNames.OutputFilenameFor exEchoFile ".pb.grpchan.go", ""⟩] :=
  ⟨by decide,
    failed_unit_registers_empty_file exFailingGopoet exEchoFile exNames ⟨[⟨"a.go", "x"⟩]⟩
      ⟨[⟨"a.go", "x"⟩, ⟨"echo.pb.grpchan.go", ""⟩]⟩ "write failed" (by decide)⟩

/-! ## Header, indices and composition -/

theorem buildFile_FileComment (gp : Gopoet) (names : GoNames) (fd : FileDescriptor) :
    (buildFile gp names fd).FileComment =
      "Code generated by protoc-gen-grpchan. DO NOT EDIT.\n" ++ "source: " ++ fd.name := by
  simp [buildFile, foldl_serviceStep, NewGoFile]

theorem splitLines_no_newline (cs : List Char) (h : '\n' ∉ cs) : splitLines cs = [cs] := by
  induction cs with
  | nil => rfl
  | cons c cs ih =>
    have hc : c ≠ '\n' := fun hc => h (hc ▸ List.mem_cons_self _ _)
    have hcs : '\n' ∉ cs := fun hm => h (List.mem_cons_of_mem _ hm)
    simp [splitLines, ih hcs, hc]

theorem splitLines_append_newline (as bs : List Char) (h : '\n' ∉ as) :
    splitLines (as ++ '\n' :: bs) = as :: splitLines bs := by
  have hne : ∀ xs : List Char, splitLines xs ≠ [] := by
    intro xs
    induction xs with
    | nil => simp [splitLines]
    | cons c cs ih =>
      unfold splitLines
      split
      · simp
      · split <;> simp
  induction as with
  | nil =>
    simp only [List.nil_append, splitLines]
    cases hb : splitLines bs with
    | nil => exact absurd hb (hne bs)
    | cons l ls => simp
  | cons c cs ih =>
    have hc : c ≠ '\n' := fun hc => h (hc ▸ List.mem_cons_self _ _)
    have hcs : '\n' ∉ cs := fun hm => h (List.mem_cons_of_mem _ hm)
    simp [splitLines, ih hcs, hc]

/-- C16: for a unit with at least one service the file handed to the writer
has as its comment the generator line, a newline, and `source: ` followed by
the name of the unit, and nothing else; when the name holds no newline these
are exactly two lines. -/
theorem file_comment_two_lines (gp : Gopoet) (fd : FileDescriptor) (names : GoNames)
    (resp : CodeGenResponse) (hne : fd.services ≠ []) :
    generateChanStubs gp fd names resp =
      (match resp.OutputFile (names.OutputFilenameFor fd ".pb.grpchan.go") with
      | .panics => .panics
      | .returns (resp2, out) =>
        .returns (WriteGoFile gp out (buildFile gp names fd) resp2)) ∧
    (buildFile gp names fd).FileComment =
      "Code generated by protoc-gen-grpchan. DO NOT EDIT." ++ "\n" ++ ("source: " ++ fd.name) ∧
    ('\n' ∉ fd.name.data →
      linesOf (buildFile gp names fd).FileComment =
        ["Code generated by protoc-gen-grpchan. DO NOT EDIT.", "source: " ++ fd.name]) := by
  refine ⟨generateChanStubs_of_services gp fd names resp hne, ?_, ?_⟩
  · rw [buildFile_FileComment]
    apply String.ext
    simp
  · intro hn
    rw [buildFile_FileComment]
    have h1 : ("Code generated by protoc-gen-grpchan. DO NOT EDIT.\n" ++ "source: " ++
        fd.name).data =
        "Code generated by protoc-gen-grpchan. DO NOT EDIT.".data ++
          '\n' :: ("source: " ++ fd.name).data := by
      simp
    have h2 : '\n' ∉ "Code generated by protoc-gen-grpchan. DO NOT EDIT.".data := by decide
    have h3 : '\n' ∉ ("source: " ++ fd.name).data := by
      simp only [String.data_append, List.mem_append, not_or]
      exact ⟨by decide, hn⟩
    unfold linesOf
    rw [h1, splitLines_append_newline _ _ h2, splitLines_no_newline _ h3]
    rfl

/-- Witness of C16: the comment of the file generated for `echo.proto`. -/
theorem file_comment_two_lines_witness :
    linesOf (buildFile exGopoet exNames exEchoFile).FileComment =
      ["Code generated by protoc-gen-grpchan. DO NOT EDIT.", "source: echo.proto"] := by
  have h := (file_comment_two_lines exGopoet exEchoFile exNames ⟨[]⟩ (by decide)).2.2
    (by decide)
  exact h.trans (by decide)

theorem emittedIndices_emittedMethod (names : GoNames) (sd : ServiceDescriptor)
    (cc : TypeSpec) (k : Nat) (md : MethodDescriptor) :
    emittedIndices (emittedMethod names sd cc k md) = if isStreaming md then [k] else [] := by
  cases hc : md.clientStreaming
  · cases hs : md.serverStreaming
    · rw [emittedMethod_unary _ _ _ _ _ hc hs]
      simp [emittedIndices, body_unaryMethod, isStreaming, hc, hs]
    · rw [emittedMethod_server _ _ _ _ _ hc hs]
      simp [emittedIndices, body_serverStreamingMethod, isStreaming, hc, hs]
  · rw [emittedMethod_client _ _ _ _ _ hc]
    simp [emittedIndices, body_clientStreamingMethod, isStreaming, hc]

theorem methodElems_indices (names : GoNames) (sd : ServiceDescriptor) (cc : TypeSpec)
    (ms : List MethodDescriptor) (k : Nat) :
    ((methodElems names sd cc k ms).map elementIndices).flatten =
      List.range' k (ms.countP isStreaming) := by
  induction ms generalizing k with
  | nil => simp [methodElems]
  | cons md ms ih =>
    rw [methodElems, List.map_cons, List.flatten_cons, ih]
    simp only [elementIndices, emittedIndices_emittedMethod]
    by_cases h : isStreaming md = true
    · simp [h, List.countP_cons, List.range'_succ]
    · simp [h, List.countP_cons]

theorem flatten_slice {α β : Type} (g : α → List β) (l : List α) (j : Nat) (a : α)
    (h : l[j]? = some a) :
    (((l.map g).flatten).drop ((l.take j).map (fun x => (g x).length)).sum).take
      (g a).length = g a := by
  induction l generalizing j with
  | nil => simp at h
  | cons x xs ih =>
    cases j with
    | zero =>
      simp at h
      subst h
      simp
    | succ j =>
      simp at h
      simp only [List.map_cons, List.flatten_cons, List.take_succ_cons, List.sum_cons]
      rw [List.drop_append]
      exact ih j h

theorem buildFile_slice (gp : Gopoet) (names : GoNames) (fd : FileDescriptor) (j : Nat)
    (sd : ServiceDescriptor) (h : fd.services[j]? = some sd) :
    ((buildFile gp names fd).elements.drop (declOffset fd j)).take (3 + sd.methods.length) =
      serviceElems gp names sd := by
  have := flatten_slice (serviceElems gp names) fd.services j sd h
  rw [buildFile_elements]
  simpa [declOffset, serviceElems_length] using this

theorem streamsBefore_succ (ms : List MethodDescriptor) (i : Nat) (md : MethodDescriptor)
    (h : ms[i]? = some md) :
    streamsBefore ms (i + 1) = streamsBefore ms i + (if isStreaming md then 1 else 0) := by
  unfold streamsBefore
  rw [List.take_succ, h]
  by_cases hs : isStreaming md = true <;> simp [List.countP_append, hs]

theorem streamsBefore_mono (ms : List MethodDescriptor) (i d : Nat) :
    streamsBefore ms i ≤ streamsBefore ms (i + d) := by
  unfold streamsBefore
  rw [List.take_add, List.countP_append]
  omega

theorem streamsBefore_le (ms : List MethodDescriptor) (i : Nat) :
    streamsBefore ms i ≤ ms.countP isStreaming := by
  unfold streamsBefore
  exact List.Sublist.countP_le _ (List.take_sublist _ _)

/-- C18: for a service with `n` streaming methods the stream indices carried
by its method declarations, read in declaration order, are exactly
0, 1, ..., n-1: every emitted index is below `n`, and an index is never
carried by two different methods of the service. -/
theorem stream_indices_form_a_range (gp : Gopoet) (names : GoNames) (fd : FileDescriptor)
    (j : Nat) (sd : ServiceDescriptor) (hj : fd.services[j]? = some sd) :
    ((((buildFile gp names fd).elements.drop (declOffset fd j + 3)).take
        sd.methods.length).map elementIndices).flatten =
      List.range (sd.methods.countP isStreaming) ∧
    (∀ i md, sd.methods[i]? = some md →
      ∃ fs, (buildFile gp names fd).elements[declOffset fd j + 3 + i]? = some (.func fs) ∧
        ∀ k ∈ emittedIndices fs, k < sd.methods.countP isStreaming) ∧
    (∀ i i2 md md2 fs fs2 k, sd.methods[i]? = some md → sd.methods[i2]? = some md2 →
      (buildFile gp names fd).elements[declOffset fd j + 3 + i]? = some (.func fs) →
      (buildFile gp names fd).elements[declOffset fd j + 3 + i2]? = some (.func fs2) →
      k ∈ emittedIndices fs → k ∈ emittedIndices fs2 → i = i2) := by
  have hbound : ∀ i md, sd.methods[i]? = some md → isStreaming md = true →
      streamsBefore sd.methods i < sd.methods.countP isStreaming := by
    intro i md hi hs
    have h1 := streamsBefore_succ sd.methods i md hi
    have h2 := streamsBefore_le sd.methods (i + 1)
    simp [hs] at h1
    omega
  have hlt : ∀ i i2 md, sd.methods[i]? = some md → isStreaming md = true → i < i2 →
      streamsBefore sd.methods i < streamsBefore sd.methods i2 := by
    intro i i2 md hi hs hlt
    have h1 := streamsBefore_succ sd.methods i md hi
    have h2 := streamsBefore_mono sd.methods (i + 1) (i2 - (i + 1))
    have h3 : i + 1 + (i2 - (i + 1)) = i2 := by omega
    rw [h3] at h2
    simp [hs] at h1
    omega
  have hidx : ∀ i md fs, sd.methods[i]? = some md →
      (buildFile gp names fd).elements[declOffset fd j + 3 + i]? = some (.func fs) →
      ∀ k ∈ emittedIndices fs, isStreaming md = true ∧ k = streamsBefore sd.methods i := by
    intro i md fs hi hfs k hk
    rw [buildFile_method gp names fd j i sd md hj hi] at hfs
    simp only [Option.some.injEq, FileElement.func.injEq] at hfs
    subst hfs
    rw [emittedIndices_emittedMethod] at hk
    by_cases hs : isStreaming md = true
    · simpa [hs] using hk
    · simp [hs] at hk
  refine ⟨?_, ?_, ?_⟩
  · have hslice := buildFile_slice gp names fd j sd hj
    have hdrop : ((buildFile gp names fd).elements.drop (declOffset fd j + 3)).take
        sd.methods.length = (serviceElems gp names sd).drop 3 := by
      rw [← hslice, List.drop_take, ← List.drop_drop, Nat.add_sub_cancel_left]
    rw [hdrop]
    simp only [serviceElems, List.drop_succ_cons, List.cons_append, List.nil_append,
      List.drop_zero]
    rw [methodElems_indices, List.range_eq_range']
  · intro i md hi
    refine ⟨_, buildFile_method gp names fd j i sd md hj hi, ?_⟩
    intro k hk
    obtain ⟨hs, hk2⟩ := hidx i md _ hi (buildFile_method gp names fd j i sd md hj hi) k hk
    rw [hk2]
    exact hbound i md hi hs
  · intro i i2 md md2 fs fs2 k hi hi2 hfs hfs2 hk hk2
    obtain ⟨hs, he⟩ := hidx i md fs hi hfs k hk
    obtain ⟨hs2, he2⟩ := hidx i2 md2 fs2 hi2 hfs2 k hk2
    rcases Nat.lt_trichotomy i i2 with h | h | h
    · have := hlt i i2 md hi hs h
      omega
    · exact h
    · have := hlt i2 i md2 hi2 hs2 h
      omega

/-- Witness of C18: the sample service with two streaming methods carries the
indices 0 and 1. -/
theorem stream_indices_form_a_range_witness :
    ((((buildFile exGopoet exNames exMixedFile).elements.drop 7).take 4).map
      elementIndices).flatten = [0, 1] :=
  (stream_indices_form_a_range exGopoet exNames exMixedFile 1 exMixed rfl).1

/-- C19: the declarations built for a unit are the concatenation, in
descriptor order, of the declarations built for each of its services alone;
the declarations of a service, stream indices included, are those of any
unit that holds this service only, whatever stands before or after it. -/
theorem unit_is_concatenation_of_services (gp : Gopoet) (names : GoNames)
    (fd : FileDescriptor) :
    (buildFile gp names fd).elements =
      (fd.services.map (fun sd =>
        (buildFile gp names { fd with services := [sd] }).elements)).flatten ∧
    ∀ (j : Nat) (sd : ServiceDescriptor) (fd2 : FileDescriptor),
      fd.services[j]? = some sd → fd2.services = [sd] →
      ((buildFile gp names fd).elements.drop (declOffset fd j)).take (3 + sd.methods.length) =
        (buildFile gp names fd2).elements := by
  constructor
  · rw [buildFile_elements]
    congr 1
    apply List.map_congr_left
    intro sd _
    rw [buildFile_elements]
    simp
  · intro j sd fd2 hj h2
    rw [buildFile_slice gp names fd j sd hj, buildFile_elements, h2]
    simp

/-- Witness of C19: the unit with the services Echo and Mixed. -/
theorem unit_is_concatenation_of_services_witness :
    (buildFile exGopoet exNames exMixedFile).elements =
      (buildFile exGopoet exNames { exMixedFile with services := [exEcho] }).elements ++
        (buildFile exGopoet exNames { exMixedFile with services := [exMixed] }).elements := by
  have h := (unit_is_concatenation_of_services exGopoet exNames exMixedFile).1
  simpa [exMixedFile] using h

/-! ## Names of the top-level symbols -/

theorem string_append_left_cancel (a b c : String) (h : a ++ b = a ++ c) : b = c := by
  have := congrArg String.data h
  simp only [String.data_append] at this
  exact String.ext (List.append_cancel_left this)

theorem string_append_right_cancel (a b c : String) (h : a ++ c = b ++ c) : a = b := by
  have := congrArg String.data h
  simp only [String.data_append] at this
  exact String.ext (List.append_cancel_right this)

theorem holder_head (u : String) (h : ∀ c, u.data.head? = some c → c.isUpper = false) :
    ∃ c, (u ++ "ChannelClient").data.head? = some c ∧ c ≠ 'R' ∧ c ≠ 'N' := by
  cases hu : u.data with
  | nil =>
    refine ⟨'C', ?_, by decide, by decide⟩
    simp [hu]
  | cons c cs =>
    have hc := h c (by simp [hu])
    refine ⟨c, by simp [hu], ?_, ?_⟩
    · intro hR
      subst hR
      exact absurd hc (by decide)
    · intro hN
      subst hN
      exact absurd hc (by decide)

theorem holder_ne_register (u s : String) (h : ∀ c, u.data.head? = some c → c.isUpper = false) :
    u ++ "ChannelClient" ≠ "RegisterHandler" ++ s := by
  intro he
  obtain ⟨c, hc, hR, _⟩ := holder_head u h
  rw [he] at hc
  have : ("RegisterHandler" ++ s).data.head? = some 'R' := by
    simp only [String.data_append]
    rfl
  rw [this] at hc
  exact hR (Option.some.inj hc).symm

theorem holder_ne_constructor (u s : String)
    (h : ∀ c, u.data.head? = some c → c.isUpper = false) :
    u ++ "ChannelClient" ≠ "New" ++ s ++ "ChannelClient" := by
  intro he
  obtain ⟨c, hc, _, hN⟩ := holder_head u h
  rw [he] at hc
  have : ("New" ++ s ++ "ChannelClient").data.head? = some 'N' := by
    simp only [String.data_append]
    rfl
  rw [this] at hc
  exact hN (Option.some.inj hc).symm

theorem register_ne_constructor (s t : String) :
    "RegisterHandler" ++ s ≠ "New" ++ t ++ "ChannelClient" := by
  intro he
  have h1 : ("RegisterHandler" ++ s).data.head? = some 'R' := by
    simp only [String.data_append]
    rfl
  have h2 : ("New" ++ t ++ "ChannelClient").data.head? = some 'N' := by
    simp only [String.data_append]
    rfl
  rw [he, h2] at h1
  exact absurd (Option.some.inj h1) (by decide)

theorem methodElems_topLevel (names : GoNames) (sd : ServiceDescriptor) (cc : TypeSpec)
    (ms : List MethodDescriptor) (k : Nat) :
    (methodElems names sd cc k ms).filterMap topLevelName = [] := by
  induction ms generalizing k with
  | nil => rfl
  | cons md ms ih =>
    simp [methodElems, topLevelName, emittedMethod_receiver, ih]

theorem buildFile_topLevelSymbols (gp : Gopoet) (names : GoNames) (fd : FileDescriptor) :
    topLevelSymbols (buildFile gp names fd) =
      (fd.services.map (fun sd =>
        ["RegisterHandler" ++ names.CamelCase sd.name,
         gp.Unexport (names.CamelCase sd.name) ++ "ChannelClient",
         "New" ++ names.CamelCase sd.name ++ "ChannelClient"])).flatten := by
  unfold topLevelSymbols
  rw [buildFile_elements]
  induction fd.services with
  | nil => rfl
  | cons sd rest ih =>
    simp only [List.map_cons, List.flatten_cons, List.filterMap_append, ih]
    congr 1
    simp only [serviceElems, List.filterMap_append, methodElems_topLevel, List.append_nil]
    simp [topLevelName, registerFunc_eq, constructorFunc_eq, holderType_eq]

theorem symbols_nodup (gp : Gopoet) (names : GoNames) (sds : List ServiceDescriptor)
    (hS : (sds.map (fun sd => names.CamelCase sd.name)).Nodup)
    (hU : (sds.map (fun sd => gp.Unexport (names.CamelCase sd.name))).Nodup)
    (hlow : ∀ sd ∈ sds, ∀ c,
      (gp.Unexport (names.CamelCase sd.name)).data.head? = some c → c.isUpper = false) :
    ((sds.map (fun sd =>
        ["RegisterHandler" ++ names.CamelCase sd.name,
         gp.Unexport (names.CamelCase sd.name) ++ "ChannelClient",
         "New" ++ names.CamelCase sd.name ++ "ChannelClient"])).flatten).Nodup := by
  induction sds with
  | nil => simp
  | cons sd rest ih =>
    rw [List.map_cons, List.nodup_cons] at hS hU
    obtain ⟨hS1, hS2⟩ := hS
    obtain ⟨hU1, hU2⟩ := hU
    have hl0 := hlow sd (List.mem_cons_self _ _)
    have hlr : ∀ x ∈ rest, ∀ c,
        (gp.Unexport (names.CamelCase x.name)).data.head? = some c → c.isUpper = false :=
      fun x hx => hlow x (List.mem_cons_of_mem _ hx)
    have hSne : ∀ x ∈ rest, names.CamelCase sd.name ≠ names.CamelCase x.name :=
      fun x hx he => hS1 (List.mem_map.mpr ⟨x, hx, he.symm⟩)
    have hUne : ∀ x ∈ rest,
        gp.Unexport (names.CamelCase sd.name) ≠ gp.Unexport (names.CamelCase x.name) :=
      fun x hx he => hU1 (List.mem_map.mpr ⟨x, hx, he.symm⟩)
    rw [List.map_cons, List.flatten_cons, List.nodup_append]
    refine ⟨?_, ih hS2 hU2 hlr, ?_⟩
    · simp only [List.nodup_cons, List.mem_cons, List.mem_singleton, List.not_mem_nil,
        not_false_eq_true, List.nodup_nil, and_true, not_or]
      exact ⟨⟨(holder_ne_register _ _ hl0).symm, register_ne_constructor _ _⟩,
        holder_ne_constructor _ _ hl0⟩
    · intro x hx1 hx2
      simp only [List.mem_flatten, List.mem_map] at hx2
      obtain ⟨l, ⟨y, hy, rfl⟩, hxl⟩ := hx2
      simp only [List.mem_cons, List.mem_singleton, List.not_mem_nil, or_false] at hx1 hxl
      rcases hx1 with rfl | rfl | rfl
      · rcases hxl with h | h | h
        · exact hSne y hy (string_append_left_cancel _ _ _ h)
        · exact holder_ne_register _ _ (hlr y hy) h.symm
        · exact register_ne_constructor _ _ h
      · rcases hxl with h | h | h
        · exact holder_ne_register _ _ hl0 h
        · exact hUne y hy (string_append_right_cancel _ _ _ h)
        · exact holder_ne_constructor _ _ hl0 h
      · rcases hxl with h | h | h
        · exact register_ne_constructor _ _ h.symm
        · exact holder_ne_constructor _ _ (hlr y hy) h.symm
        · have h2 := string_append_right_cancel _ _ _ h
          exact hSne y hy (string_append_left_cancel _ _ _ h2)

/-- Counterexample to C15: the services `foo` and `Foo` have different
descriptor names, and the file built for their unit declares
`RegisterHandlerFoo` twice. -/
theorem different_names_can_collide :
    (exCollideFile.services.map (fun sd => sd.name)).Nodup ∧
      ¬ (topLevelSymbols (buildFile exGopoet exNames exCollideFile)).Nodup ∧
      topLevelSymbols (buildFile exGopoet exNames exCollideFile) =
        ["RegisterHandlerFoo", "fooChannelClient", "NewFooChannelClient",
         "RegisterHandlerFoo", "fooChannelClient", "NewFooChannelClient"] := by
  decide

/-- C15, amended: for a unit whose services have pairwise different
camel-cased names, whose unexported forms are pairwise different and do not
begin with an upper-case letter, the top-level symbols declared in the file,
which are per service the registration function, the holder type and the
constructor, are pairwise distinct; in particular no holder type name equals
a registration-function name. -/
theorem top_level_symbols_distinct (gp : Gopoet) (names : GoNames) (fd : FileDescriptor)
    (hS : (fd.services.map (fun sd => names.CamelCase sd.name)).Nodup)
    (hU : (fd.services.map (fun sd => gp.Unexport (names.CamelCase sd.name))).Nodup)
    (hlow : ∀ sd ∈ fd.services, ∀ c,
      (gp.Unexport (names.CamelCase sd.name)).data.head? = some c → c.isUpper = false) :
    topLevelSymbols (buildFile gp names fd) =
      (fd.services.map (fun sd =>
        ["RegisterHandler" ++ names.CamelCase sd.name,
         gp.Unexport (names.CamelCase sd.name) ++ "ChannelClient",
         "New" ++ names.CamelCase sd.name ++ "ChannelClient"])).flatten ∧
    (topLevelSymbols (buildFile gp names fd)).Nodup ∧
    ∀ sd ∈ fd.services, ∀ sd2 ∈ fd.services,
      gp.Unexport (names.CamelCase sd.name) ++ "ChannelClient" ≠
        "RegisterHandler" ++ names.CamelCase sd2.name := by
  refine ⟨buildFile_topLevelSymbols gp names fd, ?_, ?_⟩
  · rw [buildFile_topLevelSymbols]
    exact symbols_nodup gp names fd.services hS hU hlow
  · intro sd hsd sd2 _
    exact holder_ne_register _ _ (hlow sd hsd)

/-- Witness of C15, amended: the unit with the services Echo and Mixed. -/
theorem top_level_symbols_distinct_witness :
    topLevelSymbols (buildFile exGopoet exNames exMixedFile) =
      ["RegisterHandlerEcho", "echoChannelClient", "NewEchoChannelClient",
       "RegisterHandlerMixed", "mixedChannelClient", "NewMixedChannelClient"] ∧
    (topLevelSymbols (buildFile exGopoet exNames exMixedFile)).Nodup := by
  have h := top_level_symbols_distinct exGopoet exNames exMixedFile (by decide) (by decide)
    (by
      intro sd hsd c hc
      simp only [exMixedFile, List.mem_cons, List.mem_singleton, List.not_mem_nil,
        or_false] at hsd
      rcases hsd with rfl | rfl
      · have : c = 'e' := (Option.some.inj hc).symm
        subst this
        decide
      · have : c = 'm' := (Option.some.inj hc).symm
        subst this
        decide)
  exact ⟨h.1.trans (by decide), h.2.1⟩

end Grpchan
